import Mathlib

/-!
Verification model of the AbyssChat relay (src/server/server.js) and its
client-side encryption layer (src/client/src/components/TerminalUI.jsx).

JavaScript `Map` objects are modelled as association lists with
decidable-equality keys; `Map.set` replaces an existing binding in place,
`Map.delete` removes it, `Map.get` is `alookup`.
-/

/-- `Map.get`: first binding for the key, if any. -/
def alookup {α : Type} (l : List (String × α)) (k : String) : Option α :=
  match l with
  | [] => none
  | (k', v) :: rest => if k' = k then some v else alookup rest k

/-- `Map.set`: replace the existing binding, else append a new one. -/
def ainsert {α : Type} (l : List (String × α)) (k : String) (v : α) : List (String × α) :=
  match l with
  | [] => [(k, v)]
  | (k', v') :: rest => if k' = k then (k', v) :: rest else (k', v') :: ainsert rest k v

/-- `Map.delete`: remove the binding for the key. -/
def aerase {α : Type} (l : List (String × α)) (k : String) : List (String × α) :=
  match l with
  | [] => []
  | (k', v') :: rest => if k' = k then rest else (k', v') :: aerase rest k

theorem alookup_ainsert_self {α : Type} (l : List (String × α)) (k : String) (v : α) :
    alookup (ainsert l k v) k = some v := by
  induction l with
  | nil => simp [ainsert, alookup]
  | cons hd tl ih =>
    obtain ⟨k', v'⟩ := hd
    by_cases h : k' = k
    · simp [ainsert, alookup, h]
    · simp [ainsert, alookup, h, ih]

theorem alookup_ainsert_ne {α : Type} (l : List (String × α)) (k r : String) (v : α)
    (h : r ≠ k) : alookup (ainsert l k v) r = alookup l r := by
  induction l with
  | nil => simp [ainsert, alookup, Ne.symm h]
  | cons hd tl ih =>
    obtain ⟨k', v'⟩ := hd
    by_cases hk : k' = k
    · subst hk
      simp [ainsert, alookup, Ne.symm h]
    · simp [ainsert, alookup, hk, ih]

theorem alookup_aerase_ne {α : Type} (l : List (String × α)) (k r : String)
    (h : r ≠ k) : alookup (aerase l k) r = alookup l r := by
  induction l with
  | nil => simp [aerase]
  | cons hd tl ih =>
    obtain ⟨k', v'⟩ := hd
    by_cases hk : k' = k
    · subst hk
      simp [aerase, alookup, Ne.symm h]
    · simp [aerase, alookup, hk, ih]

/-! ## Sanitizer (server.js lines 63-85)

JS strings are modelled as Lean `String` via their character lists; the
`/gim` regexes of the strip branch are modelled by leftmost-shortest
(lazy) matching of their literal tokens, case-insensitively, with `.`
standing for any character.
-/

/-- Models JS `String.prototype.trim`. -/
def jsTrim (s : String) : String :=
  String.mk (((s.data.dropWhile Char.isWhitespace).reverse.dropWhile Char.isWhitespace).reverse)

def maxMessageLength : Nat := 20000

/-- One step of the HTML-special-character escaping chain. -/
def escapeChar (c : Char) : List Char :=
  if c = '&' then "&amp;".data
  else if c = '<' then "&lt;".data
  else if c = '>' then "&gt;".data
  else if c = '"' then "&quot;".data
  else if c = Char.ofNat 39 then "&#039;".data
  else [c]

def lcEq (a b : Char) : Bool := a.toLower = b.toLower

/-- Case-insensitive literal-token match at the head; returns the remainder. -/
def matchTokAt : List Char → List Char → Option (List Char)
  | [], l => some l
  | _ :: _, [] => none
  | t :: ts, c :: cs => if lcEq t c then matchTokAt ts cs else none

def matchAnyTokAt (toks : List (List Char)) (l : List Char) : Option (List Char) :=
  match toks with
  | [] => none
  | tok :: rest =>
    match matchTokAt tok l with
    | some l2 => some l2
    | none => matchAnyTokAt rest l

/-- Lazy `.*?tok`: scan forward to the first position where a token matches. -/
def scanToTok (toks : List (List Char)) : List Char → Option (List Char)
  | [] => matchAnyTokAt toks []
  | c :: cs =>
    match matchAnyTokAt toks (c :: cs) with
    | some l2 => some l2
    | none => scanToTok toks cs

/-- Consume the remaining `.*?token` segments of a lazy pattern. -/
def completeFrom (segs : List (List (List Char))) (l : List Char) : Option (List Char) :=
  match segs with
  | [] => some l
  | seg :: rest =>
    match scanToTok seg l with
    | none => none
    | some l2 => completeFrom rest l2

/-- Global removal (`.replace(re, '')` with `g`) of a lazy token pattern. -/
def removePatternGo : Nat → List (List Char) → List (List (List Char)) → List Char → List Char
  | 0, _, _, l => l
  | _ + 1, _, _, [] => []
  | fuel + 1, alts0, rest, c :: cs =>
    match matchAnyTokAt alts0 (c :: cs) with
    | some l2 =>
      match completeFrom rest l2 with
      | some l3 => removePatternGo fuel alts0 rest l3
      | none => c :: removePatternGo fuel alts0 rest cs
    | none => c :: removePatternGo fuel alts0 rest cs

def removePattern (alts0 : List (List Char)) (rest : List (List (List Char)))
    (l : List Char) : List Char :=
  removePatternGo (l.length + 1) alts0 rest l

/-- The three strip regexes of server.js lines 78-81. -/
def stripMarkup (l : List Char) : List Char :=
  let l1 := removePattern ["&lt;script".data, "&lt;style".data]
    [["&gt;".data], ["&lt;/script".data, "&lt;/style".data], ["&gt;".data]] l
  let l2 := removePattern ["&lt;img".data] [["&gt;".data]] l1
  removePattern ["&lt;iframe".data] [["&gt;".data], ["&lt;/iframe".data], ["&gt;".data]] l2

/-- server.js `sanitizeMessage`. -/
def sanitizeMessage (msg : String) : String :=
  let cleaned := (jsTrim msg).data
  if cleaned = [] then ""
  else
    let cleaned := if cleaned.length > maxMessageLength then cleaned.take maxMessageLength else cleaned
    let cleaned := cleaned.flatMap escapeChar
    let marker := "&amp;&amp;&amp;".data
    let cleaned :=
      if marker.isPrefixOf cleaned && marker.reverse.isPrefixOf cleaned.reverse then
        stripMarkup cleaned
      else cleaned
    String.mk cleaned

/-! ## Server data model (server.js lines 51-57, 99-110) -/

/-- One entry of a room's history buffer / one `message` event payload. -/
structure Message where
  user : String
  text : Option String
  encrypted : Option (List Nat)
  iv : Option (List Nat)
  color : Option String
  uniqueId : Option String
  timestamp : String
  isEncrypted : Bool
deriving DecidableEq

/-- A member's record in a room's `users` Map. -/
structure User where
  username : String
  color : String
  uniqueId : String
  isTyping : Bool
deriving DecidableEq

/-- One room's record in the `rooms` Map. -/
structure RoomData where
  users : List (String × User)
  messages : List Message
  isEncrypted : Bool
  password : Option String
  creator : Option String
deriving DecidableEq

/-- The server's two global Maps. -/
structure ServerState where
  rooms : List (String × RoomData)
  userRooms : List (String × String)
deriving DecidableEq

def initialState : ServerState := { rooms := [], userRooms := [] }

/-- Recipient of an outbound socket event: `socket.emit`, `socket.to(room).emit`,
`io.to(room).emit` respectively. -/
inductive Target where
  | toCaller : Target
  | toRoomExceptCaller : String → Target
  | toRoom : String → Target
deriving DecidableEq

inductive Event where
  | message : Message → Event
  | userCount : Nat → Event
  | userTyping : String → Bool → String → Event
  | error : String → Event
  | joinSuccess : String → Bool → String → Event
  | roomEncrypted : Event
deriving DecidableEq

abbrev Output := Target × Event

/-- The fresh record `getRoomData` installs for an unknown room id. -/
def defaultRoomData : RoomData :=
  { users := [], messages := [], isEncrypted := true, password := none, creator := none }

/-- State effect of server.js `getRoomData`: installs a fresh record iff absent. -/
def ensureRoom (s : ServerState) (room : String) : ServerState :=
  match alookup s.rooms room with
  | some _ => s
  | none => { s with rooms := ainsert s.rooms room defaultRoomData }

/-- Value part of server.js `getRoomData` (on a state where the room is ensured). -/
def getRoomData (s : ServerState) (room : String) : RoomData :=
  (alookup s.rooms room).getD defaultRoomData

def setRoomData (s : ServerState) (room : String) (rd : RoomData) : ServerState :=
  { s with rooms := ainsert s.rooms room rd }

/-! ## Room password and history management (server.js lines 121-160) -/

/-- server.js `setRoomPassword` (lines 121-126). -/
def setRoomPassword (s : ServerState) (room password creator : String) : ServerState :=
  let s1 := ensureRoom s room
  setRoomData s1 room
    { getRoomData s1 room with password := some password, creator := some creator, isEncrypted := true }

/-- server.js `validateRoomPassword` (lines 128-132); the stored password is
`null` or a string, the candidate is `undefined` or a string, and `===` on any
mixed or absent combination is false. -/
def validateRoomPassword (s : ServerState) (room : String) (password : Option String) : Bool :=
  match alookup s.rooms room with
  | none => false
  | some rd =>
    match rd.password, password with
    | some a, some b => a = b
    | _, _ => false

def maxRoomMessages : Nat := 50

/-- server.js `addMessageToRoom` history update (push, then `slice(-50)`). -/
def addMessageToRoom (msgs : List Message) (m : Message) : List Message :=
  let l := msgs ++ [m]
  if l.length > maxRoomMessages then l.drop (l.length - maxRoomMessages) else l

/-- server.js `addMessageToRoom` applied to a room of the registry. -/
def addMessageToRoomS (s : ServerState) (room : String) (m : Message) : ServerState :=
  let s1 := ensureRoom s room
  setRoomData s1 room
    { getRoomData s1 room with messages := addMessageToRoom (getRoomData s1 room).messages m }

/-- server.js `cleanupRoom` (lines 154-160). -/
def cleanupRoom (s : ServerState) (room : String) : ServerState :=
  let s1 := ensureRoom s room
  if (getRoomData s1 room).users.isEmpty then { s1 with rooms := aerase s1.rooms room } else s1

/-- server.js `updateUserCount` (lines 149-152): recompute and broadcast. -/
def updateUserCount (s : ServerState) (room : String) : ServerState × List Output :=
  let s1 := ensureRoom s room
  (s1, [(Target.toRoom room, Event.userCount (getRoomData s1 room).users.length)])

/-! ## Handlers (server.js lines 165-372)

Randomly drawn values (display color, 4-character short id) and wall-clock
timestamps are passed in as parameters, so each handler is a pure function of
the state and its inputs.
-/

/-- Leave-previous-room preamble of `handleRoomOperations` (lines 170-178). -/
def leavePrevious (s : ServerState) (sid : String) : ServerState × List Output :=
  match alookup s.userRooms sid with
  | none => (s, [])
  | some prev =>
    let s1 := ensureRoom s prev
    let s2 := setRoomData s1 prev
      { getRoomData s1 prev with users := aerase (getRoomData s1 prev).users sid }
    let uc := updateUserCount s2 prev
    (cleanupRoom uc.1 prev, uc.2)

/-- The `System` join announcement (lines 230-235). -/
def joinAnnouncement (username ts : String) : Message :=
  { user := "System", text := some (sanitizeMessage (username ++ " joined the room")),
    encrypted := none, iv := none, color := none, uniqueId := none,
    timestamp := ts, isEncrypted := false }

/-- The `System` leave announcement (lines 350-355). -/
def leaveAnnouncement (username ts : String) : Message :=
  { user := "System", text := some (sanitizeMessage (username ++ " left the room")),
    encrypted := none, iv := none, color := none, uniqueId := none,
    timestamp := ts, isEncrypted := false }

/-- Admission tail of the `join` action (lines 201-249): register the session,
replay history, announce, append the announcement, broadcast the count,
confirm. `prevOuts` are the outputs of the leave-previous preamble. -/
def admitJoin (s : ServerState) (prevOuts : List Output)
    (sid room username color uniqueId ts : String) (roomExists : Bool) :
    ServerState × List Output :=
  let s1 := ensureRoom s room
  let s2 := setRoomData s1 room
    { getRoomData s1 room with
      users := ainsert (getRoomData s1 room).users sid
        { username := username, color := color, uniqueId := uniqueId, isTyping := false } }
  let s3 := { s2 with userRooms := ainsert s2.userRooms sid room }
  let s4 := ensureRoom s3 room
  let recent := (getRoomData s4 room).messages
  let replay := (recent.drop (recent.length - 20)).map
    (fun m => ((Target.toCaller, Event.message m) : Output))
  let ann := joinAnnouncement username ts
  let s5 := addMessageToRoomS s4 room ann
  let uc := updateUserCount s5 room
  (uc.1,
    prevOuts ++ replay
      ++ [(Target.toCaller, Event.roomEncrypted)]
      ++ [(Target.toRoomExceptCaller room, Event.message ann)]
      ++ uc.2
      ++ [(Target.toCaller,
            Event.joinSuccess room (!roomExists)
              (if roomExists then "Joined room successfully" else "Room created successfully"))])

/-- server.js `handleRoomOperations` with `action === 'join'` (lines 168-255). -/
def handleJoin (s : ServerState) (sid room username : String) (password : Option String)
    (color uniqueId ts : String) : ServerState × List Output :=
  let lp := leavePrevious s sid
  let s1 := lp.1
  let roomExists := (alookup s1.rooms room).isSome
  if roomExists then
    if validateRoomPassword s1 room password then
      admitJoin s1 lp.2 sid room username color uniqueId ts roomExists
    else (s1, lp.2 ++ [(Target.toCaller, Event.error "Incorrect room password")])
  else
    match password with
    | none => (s1, lp.2 ++ [(Target.toCaller, Event.error "Password required to create room")])
    | some p =>
      if jsTrim p = "" then
        (s1, lp.2 ++ [(Target.toCaller, Event.error "Password required to create room")])
      else
        admitJoin (setRoomPassword s1 room (jsTrim p) username) lp.2
          sid room username color uniqueId ts roomExists

/-- The `sendMessage` payload: a string, or an object whose `encrypted` and
`iv` fields each hold an array or are absent. -/
inductive MsgPayload where
  | str : String → MsgPayload
  | obj : Option (List Nat) → Option (List Nat) → MsgPayload
deriving DecidableEq

/-- server.js `isValidEncryptedMessage` (lines 88-97). -/
def isValidEncryptedMessage : MsgPayload → Bool
  | .str _ => false
  | .obj (some e) (some iv) => decide (0 < e.length) && decide (iv.length = 12)
  | .obj _ _ => false

/-- server.js `socket.on('sendMessage')` handler (lines 263-317). -/
def handleSendMessage (s : ServerState) (sid : String) (payload : MsgPayload) (ts : String) :
    ServerState × List Output :=
  match alookup s.userRooms sid with
  | none => (s, [])
  | some room =>
    let s1 := ensureRoom s room
    match alookup (getRoomData s1 room).users sid with
    | none => (s1, [])
    | some user =>
      if isValidEncryptedMessage payload then
        match payload with
        | .obj (some e) (some iv) =>
          let m : Message :=
            { user := user.username, text := none, encrypted := some e, iv := some iv,
              color := some user.color, uniqueId := some user.uniqueId,
              timestamp := ts, isEncrypted := true }
          (addMessageToRoomS s1 room m, [(Target.toRoom room, Event.message m)])
        | _ => (s1, [])
      else
        let plainTextMsg := match payload with | .str t => t | .obj _ _ => ""
        let sanitized := sanitizeMessage plainTextMsg
        if jsTrim sanitized = "" then (s1, [])
        else
          let m : Message :=
            { user := user.username, text := some sanitized, encrypted := none, iv := none,
              color := some user.color, uniqueId := some user.uniqueId,
              timestamp := ts, isEncrypted := false }
          (addMessageToRoomS s1 room m, [(Target.toRoom room, Event.message m)])

/-- server.js `handleTyping` (lines 319-340). -/
def handleTyping (s : ServerState) (sid : String) (typingState : Bool) :
    ServerState × List Output :=
  match alookup s.userRooms sid with
  | none => (s, [])
  | some room =>
    let s1 := ensureRoom s room
    match alookup (getRoomData s1 room).users sid with
    | none => (s1, [])
    | some user =>
      if user.isTyping = typingState then (s1, [])
      else
        let s2 := setRoomData s1 room
          { getRoomData s1 room with
            users := ainsert (getRoomData s1 room).users sid { user with isTyping := typingState } }
        (s2, [(Target.toRoomExceptCaller room,
               Event.userTyping user.username typingState user.uniqueId)])

/-- server.js `socket.on('disconnect')` handler (lines 342-372). -/
def handleDisconnect (s : ServerState) (sid ts : String) : ServerState × List Output :=
  match alookup s.userRooms sid with
  | none => (s, [])
  | some room =>
    let s1 := ensureRoom s room
    match alookup (getRoomData s1 room).users sid with
    | none => ({ s1 with userRooms := aerase s1.userRooms sid }, [])
    | some user =>
      let ann := leaveAnnouncement user.username ts
      let s2 := addMessageToRoomS s1 room ann
      let s3 := ensureRoom s2 room
      let s4 := setRoomData s3 room
        { getRoomData s3 room with users := aerase (getRoomData s3 room).users sid }
      let uc := updateUserCount s4 room
      let s5 := cleanupRoom uc.1 room
      ({ s5 with userRooms := aerase s5.userRooms sid },
       [(Target.toRoomExceptCaller room, Event.message ann)] ++ uc.2)

/-- One inbound transport event, with its externally drawn values. -/
inductive SEvent where
  | join : String → String → String → Option String → String → String → String → SEvent
  | send : String → MsgPayload → String → SEvent
  | typing : String → Bool → SEvent
  | disconnect : String → String → SEvent
deriving DecidableEq

def applyEvent (s : ServerState) : SEvent → ServerState × List Output
  | .join sid room username password color uniqueId ts =>
    handleJoin s sid room username password color uniqueId ts
  | .send sid payload ts => handleSendMessage s sid payload ts
  | .typing sid b => handleTyping s sid b
  | .disconnect sid ts => handleDisconnect s sid ts

def stepState (s : ServerState) (e : SEvent) : ServerState := (applyEvent s e).1

def runEvents (s : ServerState) (es : List SEvent) : ServerState := es.foldl stepState s

/-! ## Claim theorems -/

theorem addMessageToRoom_length_le (msgs : List Message) (m : Message)
    (h : msgs.length ≤ 50) : (addMessageToRoom msgs m).length ≤ 50 := by
  simp only [addMessageToRoom, maxRoomMessages]
  split
  · simp only [List.length_drop, List.length_append, List.length_cons, List.length_nil]
    omega
  · simp only [List.length_append, List.length_cons, List.length_nil] at *
    omega

theorem foldl_addMessageToRoom_le (ms : List Message) (acc : List Message)
    (h : acc.length ≤ 50) : (ms.foldl addMessageToRoom acc).length ≤ 50 := by
  induction ms generalizing acc with
  | nil => simpa using h
  | cons hd tl ih => exact ih _ (addMessageToRoom_length_le acc hd h)

/-- C6: for every room and every sequence of history appends, the history
buffer never holds more than 50 entries; appending the 51st entry evicts
exactly the oldest one, and the surviving 50 entries keep their original
relative order. -/
theorem abyss_C6 :
    (∀ ms : List Message, (ms.foldl addMessageToRoom []).length ≤ 50)
    ∧ (∀ (msgs : List Message) (m : Message), msgs.length ≤ 50 →
        (addMessageToRoom msgs m).length ≤ 50)
    ∧ (∀ (msgs : List Message) (m : Message), msgs.length = 50 →
        addMessageToRoom msgs m = msgs.drop 1 ++ [m]) := by
  refine ⟨fun ms => foldl_addMessageToRoom_le ms [] (by simp), addMessageToRoom_length_le, ?_⟩
  intro msgs m h
  have hlen : (msgs ++ [m]).length = 51 := by simp [h]
  simp only [addMessageToRoom, maxRoomMessages]
  rw [if_pos (by omega), hlen]
  have h1 : (51 : Nat) - 50 = 1 := rfl
  rw [h1, List.drop_append_of_le_length (by omega)]

def sampleMsg (u : String) : Message :=
  { user := u, text := some "hello", encrypted := none, iv := none,
    color := some "#FF5733", uniqueId := some "ab12", timestamp := "10:00:00",
    isEncrypted := false }

/-- Witness for C6 at a concrete full buffer. -/
theorem abyss_C6_witness :
    (List.replicate 50 (sampleMsg "a")).length = 50
    ∧ addMessageToRoom (List.replicate 50 (sampleMsg "a")) (sampleMsg "b")
        = (List.replicate 50 (sampleMsg "a")).drop 1 ++ [sampleMsg "b"] :=
  ⟨by simp, abyss_C6.2.2 _ _ (by simp)⟩

/-! ## A concrete trace: create room B, create room A, rejected join, stale typing -/

def traceE1 : SEvent := .join "T" "B" "tuser" (some "pw1") "#FF5733" "u1" "09:00:00"
def traceE2 : SEvent := .join "S" "A" "suser" (some "pa") "#33FF57" "u2" "09:00:01"
def traceE3 : SEvent := .join "S" "B" "suser" (some "bad") "#3357FF" "u3" "09:00:02"
def traceE4 : SEvent := .typing "S" true
def traceE5 : SEvent := .join "U" "A" "uuser" (some "whatever") "#FF33EE" "u4" "09:00:03"

/-- State after T created room B (secret pw1) and S created room A (secret pa). -/
def traceS2 : ServerState := runEvents initialState [traceE1, traceE2]

/-- Counterexample to C1 as stated: S is a member of room A; S's `joinRoom` to
room B with the wrong secret is rejected with the error as the only event to
the caller, yet state HAS been mutated: S's previous membership in A was
removed and room A was destroyed by the unconditional leave-previous step that
runs before the secret check. -/
theorem abyss_C1_cex :
    ((alookup traceS2.rooms "A").map (fun rd => (alookup rd.users "S").isSome)) = some true
    ∧ alookup traceS2.userRooms "S" = some "A"
    ∧ (applyEvent traceS2 traceE3).2
        = [(Target.toRoom "A", Event.userCount 0),
           (Target.toCaller, Event.error "Incorrect room password")]
    ∧ alookup (applyEvent traceS2 traceE3).1.rooms "A" = none := by
  refine ⟨by decide, by decide, by decide, by decide⟩

/-- C1 (amended): for every rejected joinRoom — wrong secret for an existing
room, or blank/missing secret for an absent room — no room is created, the
session is not admitted, the only outbound event to the caller is the error,
and no state is mutated beyond the unconditional leave-previous-room step that
runs before the check; in particular, when the session was in no room, no
state is mutated at all. -/
theorem abyss_C1 :
    ∀ (s : ServerState) (sid room username : String) (password : Option String)
      (color uniqueId ts : String),
    ((alookup (leavePrevious s sid).1.rooms room).isSome = true →
     validateRoomPassword (leavePrevious s sid).1 room password = false →
     handleJoin s sid room username password color uniqueId ts
       = ((leavePrevious s sid).1,
          (leavePrevious s sid).2 ++ [(Target.toCaller, Event.error "Incorrect room password")]))
    ∧ ((alookup (leavePrevious s sid).1.rooms room).isSome = false →
       (password = none ∨ ∃ p, password = some p ∧ jsTrim p = "") →
       handleJoin s sid room username password color uniqueId ts
         = ((leavePrevious s sid).1,
            (leavePrevious s sid).2
              ++ [(Target.toCaller, Event.error "Password required to create room")]))
    ∧ (alookup s.userRooms sid = none → leavePrevious s sid = (s, []))
    ∧ (∀ out ∈ (leavePrevious s sid).2, out.1 ≠ Target.toCaller) := by
  intro s sid room username password color uniqueId ts
  refine ⟨?_, ?_, ?_, ?_⟩
  · intro hex hval
    simp only [handleJoin, hex, hval, if_true, if_false, Bool.false_eq_true]
  · intro hex hblank
    simp only [handleJoin, hex, Bool.false_eq_true, if_false]
    rcases hblank with h | ⟨p, hp, htrim⟩
    · simp [h]
    · simp [hp, htrim]
  · intro h
    simp [leavePrevious, h]
  · intro out hout
    simp only [leavePrevious] at hout
    cases hlk : alookup s.userRooms sid with
    | none => simp [hlk] at hout
    | some prev =>
      simp only [hlk, updateUserCount] at hout
      simp only [List.mem_singleton] at hout
      subst hout
      simp

/-- Witness for C1 (amended) at the concrete rejected join of the trace. -/
theorem abyss_C1_witness :
    (alookup (leavePrevious traceS2 "S").1.rooms "B").isSome = true
    ∧ validateRoomPassword (leavePrevious traceS2 "S").1 "B" (some "bad") = false
    ∧ handleJoin traceS2 "S" "B" "suser" (some "bad") "#3357FF" "u3" "09:00:02"
        = ((leavePrevious traceS2 "S").1,
           (leavePrevious traceS2 "S").2
             ++ [(Target.toCaller, Event.error "Incorrect room password")]) :=
  ⟨by decide, by decide,
   (abyss_C1 traceS2 "S" "B" "suser" (some "bad") "#3357FF" "u3" "09:00:02").1
     (by decide) (by decide)⟩

/-- C2 fails on the code: after the trace (B created; A created by S; S's join
to B rejected — which removed S from A and destroyed A but left the
session-to-room index pointing at A; S then emits startTyping), the registry
holds room A with an empty member set and a null secret, and a later join to
A is rejected with the wrong-password error instead of being a brand-new
creation. -/
theorem abyss_C2_bug :
    alookup (runEvents initialState [traceE1, traceE2, traceE3, traceE4]).rooms "A"
      = some defaultRoomData
    ∧ (applyEvent (runEvents initialState [traceE1, traceE2, traceE3, traceE4]) traceE5).2
        = [(Target.toCaller, Event.error "Incorrect room password")] := by
  refine ⟨by decide, by decide⟩

/-! ## Small facts about the state primitives -/

theorem ensureRoom_userRooms (s : ServerState) (r : String) :
    (ensureRoom s r).userRooms = s.userRooms := by
  simp only [ensureRoom]
  cases alookup s.rooms r <;> rfl

theorem ensureRoom_of_isSome (s : ServerState) (r : String)
    (h : (alookup s.rooms r).isSome = true) : ensureRoom s r = s := by
  simp only [ensureRoom]
  cases hh : alookup s.rooms r
  · rw [hh] at h; simp at h
  · rfl

theorem ensureRoom_room_isSome (s : ServerState) (r : String) :
    (alookup (ensureRoom s r).rooms r).isSome = true := by
  simp only [ensureRoom]
  cases hh : alookup s.rooms r
  · simp [alookup_ainsert_self]
  · simp [hh]

theorem setRoomData_userRooms (s : ServerState) (r : String) (rd : RoomData) :
    (setRoomData s r rd).userRooms = s.userRooms := rfl

theorem getRoomData_setRoomData_self (s : ServerState) (r : String) (rd : RoomData) :
    getRoomData (setRoomData s r rd) r = rd := by
  simp [getRoomData, setRoomData, alookup_ainsert_self]

theorem setRoomData_room_isSome (s : ServerState) (r : String) (rd : RoomData) :
    (alookup (setRoomData s r rd).rooms r).isSome = true := by
  simp [setRoomData, alookup_ainsert_self]

theorem alookup_ensureRoom_cases (s : ServerState) (room r : String) (rd' : RoomData)
    (h : alookup (ensureRoom s room).rooms r = some rd') :
    alookup s.rooms r = some rd' ∨ (rd' = defaultRoomData ∧ alookup s.rooms r = none) := by
  simp only [ensureRoom] at h
  cases hh : alookup s.rooms room with
  | some rd => rw [hh] at h; exact Or.inl h
  | none =>
    rw [hh] at h
    by_cases hr : r = room
    · subst hr
      rw [alookup_ainsert_self] at h
      exact Or.inr ⟨(Option.some_inj.mp h).symm, hh⟩
    · rw [alookup_ainsert_ne _ _ _ _ hr] at h
      exact Or.inl h

/-- C8: a `userTyping` broadcast is emitted iff the startTyping/stopTyping
event genuinely flips the session's `isTyping` state; a redundant
start-while-typing or stop-while-not-typing produces no broadcast, exactly one
event fires per genuine transition, and an immediately repeated identical
event never emits a second broadcast. -/
theorem abyss_C8 :
    ∀ (s : ServerState) (sid : String) (b : Bool),
    (∀ room user, alookup s.userRooms sid = some room →
       alookup (getRoomData (ensureRoom s room) room).users sid = some user →
       (user.isTyping ≠ b →
          (handleTyping s sid b).2
            = [(Target.toRoomExceptCaller room, Event.userTyping user.username b user.uniqueId)]
          ∧ alookup (getRoomData (handleTyping s sid b).1 room).users sid
              = some { user with isTyping := b })
       ∧ (user.isTyping = b → handleTyping s sid b = (ensureRoom s room, [])))
    ∧ (alookup s.userRooms sid = none → handleTyping s sid b = (s, []))
    ∧ (handleTyping (handleTyping s sid b).1 sid b).2 = [] := by
  intro s sid b
  refine ⟨?_, ?_, ?_⟩
  · intro room user hroom huser
    constructor
    · intro hflip
      simp only [handleTyping, hroom, huser, if_neg hflip]
      refine ⟨trivial, ?_⟩
      rw [getRoomData_setRoomData_self]
      exact alookup_ainsert_self _ _ _
    · intro hb
      simp only [handleTyping, hroom, huser, if_pos hb]
  · intro h
    simp [handleTyping, h]
  · cases hroom : alookup s.userRooms sid with
    | none => simp [handleTyping, hroom]
    | some room =>
      have h2 : alookup (ensureRoom s room).userRooms sid = some room := by
        rw [ensureRoom_userRooms]; exact hroom
      have h3 : ensureRoom (ensureRoom s room) room = ensureRoom s room :=
        ensureRoom_of_isSome _ _ (ensureRoom_room_isSome s room)
      cases huser : alookup (getRoomData (ensureRoom s room) room).users sid with
      | none =>
        have h1 : handleTyping s sid b = (ensureRoom s room, []) := by
          simp [handleTyping, hroom, huser]
        rw [h1]
        simp [handleTyping, h2, h3, huser]
      | some user =>
        by_cases hb : user.isTyping = b
        · have h1 : handleTyping s sid b = (ensureRoom s room, []) := by
            simp [handleTyping, hroom, huser, hb]
          rw [h1]
          simp [handleTyping, h2, h3, huser, hb]
        · have h1 : (handleTyping s sid b).1
              = setRoomData (ensureRoom s room) room
                  { getRoomData (ensureRoom s room) room with
                    users := ainsert (getRoomData (ensureRoom s room) room).users sid
                      { user with isTyping := b } } := by
            simp [handleTyping, hroom, huser, hb]
          rw [h1]
          have h2' : alookup (setRoomData (ensureRoom s room) room
              { getRoomData (ensureRoom s room) room with
                users := ainsert (getRoomData (ensureRoom s room) room).users sid
                  { user with isTyping := b } }).userRooms sid = some room := by
            rw [setRoomData_userRooms, ensureRoom_userRooms]; exact hroom
          have h3' := ensureRoom_of_isSome _ room (setRoomData_room_isSome (ensureRoom s room) room
              { getRoomData (ensureRoom s room) room with
                users := ainsert (getRoomData (ensureRoom s room) room).users sid
                  { user with isTyping := b } })
          have h4 : alookup (getRoomData (setRoomData (ensureRoom s room) room
              { getRoomData (ensureRoom s room) room with
                users := ainsert (getRoomData (ensureRoom s room) room).users sid
                  { user with isTyping := b } }) room).users sid
              = some { user with isTyping := b } := by
            rw [getRoomData_setRoomData_self]
            exact alookup_ainsert_self _ _ _
          simp [handleTyping, h2', h3', h4]

/-- Witness for C8: S (not typing) starts typing in room A — exactly one
`userTyping{true}` broadcast to the others. -/
theorem abyss_C8_witness :
    alookup traceS2.userRooms "S" = some "A"
    ∧ alookup (getRoomData (ensureRoom traceS2 "A") "A").users "S"
        = some { username := "suser", color := "#33FF57", uniqueId := "u2", isTyping := false }
    ∧ (handleTyping traceS2 "S" true).2
        = [(Target.toRoomExceptCaller "A", Event.userTyping "suser" true "u2")] :=
  ⟨by decide, by decide,
   (((abyss_C8 traceS2 "S" true).1 "A"
       { username := "suser", color := "#33FF57", uniqueId := "u2", isTyping := false }
       (by decide) (by decide)).1 (by decide)).1⟩

/-- C10: a `sendMessage` payload that is an object but fails the
encrypted-shape validation is never forwarded as-is: it falls through to the
plaintext path, the non-string object is coerced to the empty string, and the
event is silently dropped — no outbound event is emitted and no room's history
gains an entry. -/
theorem abyss_C10 :
    ∀ (s : ServerState) (sid : String) (e iv : Option (List Nat)) (ts : String),
    isValidEncryptedMessage (.obj e iv) = false →
    (handleSendMessage s sid (.obj e iv) ts).2 = []
    ∧ ∀ r rd', alookup (handleSendMessage s sid (.obj e iv) ts).1.rooms r = some rd' →
        rd'.messages = ((alookup s.rooms r).map RoomData.messages).getD [] := by
  intro s sid e iv ts hinv
  cases hroom : alookup s.userRooms sid with
  | none =>
    have hstate : handleSendMessage s sid (.obj e iv) ts = (s, []) := by
      simp [handleSendMessage, hroom]
    refine ⟨by rw [hstate], ?_⟩
    intro r rd' hr
    rw [hstate] at hr
    simp [hr]
  | some room =>
    have hstate : handleSendMessage s sid (.obj e iv) ts = (ensureRoom s room, []) := by
      have hempty : jsTrim (sanitizeMessage "") = "" := by decide
      cases huser : alookup (getRoomData (ensureRoom s room) room).users sid with
      | none => simp [handleSendMessage, hroom, hinv, huser]
      | some user => simp [handleSendMessage, hroom, hinv, huser, hempty]
    refine ⟨by rw [hstate], ?_⟩
    intro r rd' hr
    rw [hstate] at hr
    rcases alookup_ensureRoom_cases s room r rd' hr with h | ⟨hdef, hnone⟩
    · simp [h]
    · simp [hnone, hdef, defaultRoomData]

/-- Witness for C10: S (a member of room A) sends an object whose iv has
length 3 — dropped silently. -/
theorem abyss_C10_witness :
    isValidEncryptedMessage (MsgPayload.obj (some [1, 2, 3]) (some [0, 0, 0])) = false
    ∧ (handleSendMessage traceS2 "S" (MsgPayload.obj (some [1, 2, 3]) (some [0, 0, 0]))
        "09:00:05").2 = [] :=
  ⟨by decide,
   (abyss_C10 traceS2 "S" (some [1, 2, 3]) (some [0, 0, 0]) "09:00:05" (by decide)).1⟩

theorem ainsert_ainsert {α : Type} (l : List (String × α)) (k : String) (v v' : α) :
    ainsert (ainsert l k v) k v' = ainsert l k v' := by
  induction l with
  | nil => simp [ainsert]
  | cons hd tl ih =>
    obtain ⟨k'', w⟩ := hd
    by_cases h : k'' = k
    · simp [ainsert, h]
    · simp [ainsert, h, ih]

theorem getRoomData_of_some_early (s : ServerState) (room : String) (rm : RoomData)
    (h : alookup s.rooms room = some rm) : getRoomData s room = rm := by
  simp [getRoomData, h]

theorem ensureRoom_eq_of_some (s : ServerState) (room : String) (rm : RoomData)
    (h : alookup s.rooms room = some rm) : ensureRoom s room = s := by
  simp [ensureRoom, h]

theorem ensureRoom_mk_ainsert (rs : List (String × RoomData)) (ur : List (String × String))
    (room : String) (rd : RoomData) :
    ensureRoom (ServerState.mk (ainsert rs room rd) ur) room
      = ServerState.mk (ainsert rs room rd) ur :=
  ensureRoom_of_isSome _ _ (by simp [alookup_ainsert_self])

theorem getRoomData_mk_ainsert (rs : List (String × RoomData)) (ur : List (String × String))
    (room : String) (rd : RoomData) :
    getRoomData (ServerState.mk (ainsert rs room rd) ur) room = rd := by
  simp [getRoomData, alookup_ainsert_self]

theorem admitJoin_spec (s : ServerState) (prevOuts : List Output)
    (sid room username color uniqueId ts : String) (roomExists : Bool)
    (rm : RoomData) (hrm : alookup s.rooms room = some rm) :
    admitJoin s prevOuts sid room username color uniqueId ts roomExists
      = ({ rooms := ainsert s.rooms room
             { rm with
               users := ainsert rm.users sid
                 { username := username, color := color, uniqueId := uniqueId, isTyping := false },
               messages := addMessageToRoom rm.messages (joinAnnouncement username ts) },
           userRooms := ainsert s.userRooms sid room },
         prevOuts
           ++ (rm.messages.drop (rm.messages.length - 20)).map
                (fun m => ((Target.toCaller, Event.message m) : Output))
           ++ [(Target.toCaller, Event.roomEncrypted)]
           ++ [(Target.toRoomExceptCaller room, Event.message (joinAnnouncement username ts))]
           ++ [(Target.toRoom room,
                Event.userCount (ainsert rm.users sid
                  { username := username, color := color, uniqueId := uniqueId,
                    isTyping := false }).length)]
           ++ [(Target.toCaller,
                Event.joinSuccess room (!roomExists)
                  (if roomExists then "Joined room successfully"
                   else "Room created successfully"))]) := by
  have he : ensureRoom s room = s := ensureRoom_eq_of_some s room rm hrm
  have hg : getRoomData s room = rm := getRoomData_of_some_early s room rm hrm
  simp only [admitJoin, addMessageToRoomS, updateUserCount, setRoomData, he, hg,
    ensureRoom_mk_ainsert, getRoomData_mk_ainsert, ainsert_ainsert]

/-- The record a fresh room holds right after `setRoomPassword` created it. -/
def createdRoomData (p creator : String) : RoomData :=
  { defaultRoomData with password := some p, creator := some creator }

theorem setRoomPassword_absent (s : ServerState) (room p creator : String)
    (h : alookup s.rooms room = none) :
    setRoomPassword s room p creator
      = { s with rooms := ainsert s.rooms room (createdRoomData p creator) } := by
  simp only [setRoomPassword, ensureRoom, getRoomData, setRoomData, h, alookup_ainsert_self,
    Option.getD_some, ainsert_ainsert, createdRoomData]
  simp [defaultRoomData]

/-- C7: on every accepted join (rejoin of an existing room with its secret, or
fresh creation), the joining session alone receives the most recent at-most-20
entries of the history buffer taken BEFORE the join announcement is appended,
as `toCaller` messages in original order and before every event generated
after the join; the live join announcement goes only to the pre-existing
members (`toRoomExceptCaller`), and the announcement lands in history after
the replay snapshot. -/
theorem abyss_C7 :
    ∀ (s : ServerState) (sid room username : String) (password : Option String)
      (color uniqueId ts : String),
    (∀ rm, alookup (leavePrevious s sid).1.rooms room = some rm →
      validateRoomPassword (leavePrevious s sid).1 room password = true →
      (handleJoin s sid room username password color uniqueId ts).2
        = (leavePrevious s sid).2
          ++ (rm.messages.drop (rm.messages.length - 20)).map
               (fun m => ((Target.toCaller, Event.message m) : Output))
          ++ [(Target.toCaller, Event.roomEncrypted)]
          ++ [(Target.toRoomExceptCaller room, Event.message (joinAnnouncement username ts))]
          ++ [(Target.toRoom room,
               Event.userCount (ainsert rm.users sid
                 ({ username := username, color := color, uniqueId := uniqueId,
                    isTyping := false })).length)]
          ++ [(Target.toCaller, Event.joinSuccess room false "Joined room successfully")]
      ∧ alookup (handleJoin s sid room username password color uniqueId ts).1.rooms room
          = some ({ rm with
              users := ainsert rm.users sid
                ({ username := username, color := color, uniqueId := uniqueId,
                   isTyping := false }),
              messages := addMessageToRoom rm.messages (joinAnnouncement username ts) }))
    ∧ (∀ p, alookup (leavePrevious s sid).1.rooms room = none →
      password = some p → jsTrim p ≠ "" →
      (handleJoin s sid room username password color uniqueId ts).2
        = (leavePrevious s sid).2
          ++ [(Target.toCaller, Event.roomEncrypted),
              (Target.toRoomExceptCaller room, Event.message (joinAnnouncement username ts)),
              (Target.toRoom room, Event.userCount 1),
              (Target.toCaller, Event.joinSuccess room true "Room created successfully")]
      ∧ alookup (handleJoin s sid room username password color uniqueId ts).1.rooms room
          = some ({ users := [(sid, { username := username, color := color, uniqueId := uniqueId,
                                      isTyping := false })],
                    messages := [joinAnnouncement username ts],
                    isEncrypted := true, password := some (jsTrim p),
                    creator := some username })) := by
  intro s sid room username password color uniqueId ts
  constructor
  · intro rm hrm hval
    have hx : handleJoin s sid room username password color uniqueId ts
        = admitJoin (leavePrevious s sid).1 (leavePrevious s sid).2
            sid room username color uniqueId ts true := by
      simp only [handleJoin, hrm, hval, Option.isSome_some, if_true]
    rw [hx, admitJoin_spec _ _ _ _ _ _ _ _ _ rm hrm]
    exact ⟨by simp, by simp [alookup_ainsert_self]⟩
  · intro p hnone hp htrim
    subst hp
    have hx : handleJoin s sid room username (some p) color uniqueId ts
        = admitJoin (setRoomPassword (leavePrevious s sid).1 room (jsTrim p) username)
            (leavePrevious s sid).2 sid room username color uniqueId ts false := by
      simp only [handleJoin, hnone, Option.isSome_none, Bool.false_eq_true, if_false, htrim,
        ne_eq, ite_false]
    have hlk : alookup (ainsert (leavePrevious s sid).1.rooms room
        (createdRoomData (jsTrim p) username)) room
        = some (createdRoomData (jsTrim p) username) :=
      alookup_ainsert_self _ _ _
    rw [hx, setRoomPassword_absent _ _ _ _ hnone,
      admitJoin_spec _ _ _ _ _ _ _ _ _ _ hlk]
    constructor
    · simp [createdRoomData, defaultRoomData, ainsert]
    · simp only [alookup_ainsert_self, ainsert_ainsert]
      simp [createdRoomData, defaultRoomData, ainsert, addMessageToRoom, maxRoomMessages]

/-- Witness for C7: U joins existing room B with the correct secret and
receives B's one-entry history before the live events. -/
theorem abyss_C7_witness :
    alookup (leavePrevious traceS2 "U").1.rooms "B"
      = some (getRoomData (leavePrevious traceS2 "U").1 "B")
    ∧ validateRoomPassword (leavePrevious traceS2 "U").1 "B" (some "pw1") = true
    ∧ (handleJoin traceS2 "U" "B" "uuser" (some "pw1") "#FFBD33" "u9" "09:10:00").2
        = (leavePrevious traceS2 "U").2
          ++ ((getRoomData (leavePrevious traceS2 "U").1 "B").messages.drop
                ((getRoomData (leavePrevious traceS2 "U").1 "B").messages.length - 20)).map
               (fun m => ((Target.toCaller, Event.message m) : Output))
          ++ [(Target.toCaller, Event.roomEncrypted)]
          ++ [(Target.toRoomExceptCaller "B", Event.message (joinAnnouncement "uuser" "09:10:00"))]
          ++ [(Target.toRoom "B",
               Event.userCount (ainsert (getRoomData (leavePrevious traceS2 "U").1 "B").users "U"
                 ({ username := "uuser", color := "#FFBD33", uniqueId := "u9",
                    isTyping := false })).length)]
          ++ [(Target.toCaller, Event.joinSuccess "B" false "Joined room successfully")] :=
  ⟨by decide, by decide,
   (((abyss_C7 traceS2 "U" "B" "uuser" (some "pw1") "#FFBD33" "u9" "09:10:00").1
       (getRoomData (leavePrevious traceS2 "U").1 "B") (by decide) (by decide)).1)⟩

/-! ## Secret immutability (C3) -/

theorem alookup_ainsert {α : Type} (l : List (String × α)) (k r : String) (v : α) :
    alookup (ainsert l k v) r = if k = r then some v else alookup l r := by
  by_cases h : k = r
  · subst h; simp [alookup_ainsert_self]
  · simp [h, alookup_ainsert_ne _ _ _ _ (fun hh => h hh.symm)]

theorem alookup_ensureRoom (s : ServerState) (room r : String) :
    alookup (ensureRoom s room).rooms r
      = if room = r then some (getRoomData s room) else alookup s.rooms r := by
  simp only [ensureRoom, getRoomData]
  cases hh : alookup s.rooms room with
  | some rd =>
    by_cases h : room = r
    · subst h; simp [hh]
    · simp [h]
  | none =>
    by_cases h : room = r
    · subst h; simp [hh, alookup_ainsert_self]
    · simp [h, alookup_ainsert_ne _ _ _ _ (fun hh2 => h hh2.symm), hh]

theorem getRoomData_of_some (s : ServerState) (room : String) (rm : RoomData)
    (h : alookup s.rooms room = some rm) : getRoomData s room = rm := by
  simp [getRoomData, h]

theorem alookup_eq_none_of_not_mem {α : Type} (l : List (String × α)) (k : String)
    (h : k ∉ l.map Prod.fst) : alookup l k = none := by
  induction l with
  | nil => rfl
  | cons hd tl ih =>
    obtain ⟨k', v⟩ := hd
    simp only [List.map_cons, List.mem_cons] at h
    push_neg at h
    simp [alookup, Ne.symm h.1, ih h.2]

theorem mem_keys_ainsert {α : Type} (l : List (String × α)) (k x : String) (v : α)
    (h : x ∈ (ainsert l k v).map Prod.fst) : x = k ∨ x ∈ l.map Prod.fst := by
  induction l with
  | nil => simpa [ainsert] using h
  | cons hd tl ih =>
    obtain ⟨k', v'⟩ := hd
    by_cases hk : k' = k
    · simp only [ainsert, if_pos hk, List.map_cons, List.mem_cons] at h ⊢
      rcases h with h | h
      · exact Or.inr (Or.inl h)
      · exact Or.inr (Or.inr h)
    · simp only [ainsert, if_neg hk, List.map_cons, List.mem_cons] at h ⊢
      rcases h with h | h
      · exact Or.inr (Or.inl h)
      · rcases ih h with h2 | h2
        · exact Or.inl h2
        · exact Or.inr (Or.inr h2)

theorem nodup_keys_ainsert {α : Type} (l : List (String × α)) (k : String) (v : α)
    (h : (l.map Prod.fst).Nodup) : ((ainsert l k v).map Prod.fst).Nodup := by
  induction l with
  | nil => simp [ainsert]
  | cons hd tl ih =>
    obtain ⟨k', v'⟩ := hd
    simp only [List.map_cons, List.nodup_cons] at h
    by_cases hk : k' = k
    · subst hk
      simpa [ainsert] using h
    · simp only [ainsert, if_neg hk, List.map_cons, List.nodup_cons]
      refine ⟨fun hmem => ?_, ih h.2⟩
      rcases mem_keys_ainsert tl k k' v hmem with h2 | h2
      · exact hk h2
      · exact h.1 h2

theorem alookup_aerase_self_of_nodup {α : Type} (l : List (String × α)) (k : String)
    (hnd : (l.map Prod.fst).Nodup) : alookup (aerase l k) k = none := by
  induction l with
  | nil => rfl
  | cons hd tl ih =>
    obtain ⟨k', v'⟩ := hd
    simp only [List.map_cons, List.nodup_cons] at hnd
    by_cases hk : k' = k
    · subst hk
      simp only [aerase, if_pos rfl]
      exact alookup_eq_none_of_not_mem tl k' hnd.1
    · simp [aerase, alookup, hk, ih hnd.2]

theorem alookup_ensureRoom_of_some (s : ServerState) (room r : String) (rm : RoomData)
    (h : alookup s.rooms r = some rm) : alookup (ensureRoom s room).rooms r = some rm := by
  rw [alookup_ensureRoom]
  by_cases hr : room = r
  · subst hr; rw [if_pos rfl, getRoomData_of_some s room rm h]
  · rw [if_neg hr]; exact h

theorem getRoomData_ensureRoom (s : ServerState) (room : String) :
    getRoomData (ensureRoom s room) room = getRoomData s room := by
  simp only [getRoomData, alookup_ensureRoom, if_pos rfl, getRoomData]
  cases alookup s.rooms room <;> rfl

theorem pw_step_set (s : ServerState) (room : String) (f : RoomData → RoomData)
    (hf : ∀ rd, (f rd).password = rd.password) (r : String) (rm : RoomData)
    (h : alookup s.rooms r = some rm) :
    ∃ rm2,
      alookup (setRoomData (ensureRoom s room) room
        (f (getRoomData (ensureRoom s room) room))).rooms r = some rm2
      ∧ rm2.password = rm.password := by
  simp only [setRoomData]
  rw [alookup_ainsert]
  by_cases hr : room = r
  · subst hr
    refine ⟨f (getRoomData (ensureRoom s room) room), by rw [if_pos rfl], ?_⟩
    rw [hf, getRoomData_ensureRoom, getRoomData_of_some s room rm h]
  · exact ⟨rm, by rw [if_neg hr]; exact alookup_ensureRoom_of_some s room r rm h, rfl⟩

theorem pw_addMessageToRoomS (s : ServerState) (room : String) (m : Message)
    (r : String) (rm : RoomData) (h : alookup s.rooms r = some rm) :
    ∃ rm2, alookup (addMessageToRoomS s room m).rooms r = some rm2
      ∧ rm2.password = rm.password := by
  simp only [addMessageToRoomS]
  exact pw_step_set s room
    (fun rd => { rd with messages := addMessageToRoom rd.messages m }) (fun rd => rfl) r rm h

theorem nodup_ensureRoom (s : ServerState) (room : String)
    (h : (s.rooms.map Prod.fst).Nodup) : ((ensureRoom s room).rooms.map Prod.fst).Nodup := by
  simp only [ensureRoom]
  cases alookup s.rooms room
  · exact nodup_keys_ainsert _ _ _ h
  · exact h

theorem nodup_setRoomData (s : ServerState) (room : String) (rd : RoomData)
    (h : (s.rooms.map Prod.fst).Nodup) : ((setRoomData s room rd).rooms.map Prod.fst).Nodup :=
  nodup_keys_ainsert _ _ _ h

theorem nodup_addMessageToRoomS (s : ServerState) (room : String) (m : Message)
    (h : (s.rooms.map Prod.fst).Nodup) :
    ((addMessageToRoomS s room m).rooms.map Prod.fst).Nodup :=
  nodup_setRoomData _ _ _ (nodup_ensureRoom _ _ h)

theorem pw_handleTyping (s : ServerState) (sid : String) (b : Bool) (r : String)
    (rm rm' : RoomData) (hrm : alookup s.rooms r = some rm)
    (hrm' : alookup (handleTyping s sid b).1.rooms r = some rm') :
    rm'.password = rm.password := by
  cases hlk : alookup s.userRooms sid with
  | none =>
    rw [show (handleTyping s sid b).1 = s by simp [handleTyping, hlk], hrm] at hrm'
    obtain rfl := Option.some_inj.mp hrm'
    rfl
  | some room =>
    cases huser : alookup (getRoomData (ensureRoom s room) room).users sid with
    | none =>
      rw [show (handleTyping s sid b).1 = ensureRoom s room by simp [handleTyping, hlk, huser],
        alookup_ensureRoom_of_some s room r rm hrm] at hrm'
      obtain rfl := Option.some_inj.mp hrm'
      rfl
    | some user =>
      by_cases hb : user.isTyping = b
      · rw [show (handleTyping s sid b).1 = ensureRoom s room by
            simp [handleTyping, hlk, huser, hb],
          alookup_ensureRoom_of_some s room r rm hrm] at hrm'
        obtain rfl := Option.some_inj.mp hrm'
        rfl
      · have h1 : (handleTyping s sid b).1
            = setRoomData (ensureRoom s room) room
                ((fun rd => { rd with
                    users := ainsert rd.users sid { user with isTyping := b } })
                  (getRoomData (ensureRoom s room) room)) := by
          simp [handleTyping, hlk, huser, hb]
        obtain ⟨rm2, h2, hpw⟩ := pw_step_set s room
          (fun rd => { rd with users := ainsert rd.users sid { user with isTyping := b } })
          (fun rd => rfl) r rm hrm
        rw [h1] at hrm'
        obtain rfl := Option.some_inj.mp (h2.symm.trans hrm')
        exact hpw

theorem pw_handleSendMessage (s : ServerState) (sid : String) (payload : MsgPayload)
    (ts : String) (r : String) (rm rm' : RoomData) (hrm : alookup s.rooms r = some rm)
    (hrm' : alookup (handleSendMessage s sid payload ts).1.rooms r = some rm') :
    rm'.password = rm.password := by
  cases hlk : alookup s.userRooms sid with
  | none =>
    rw [show (handleSendMessage s sid payload ts).1 = s by simp [handleSendMessage, hlk],
      hrm] at hrm'
    obtain rfl := Option.some_inj.mp hrm'
    rfl
  | some room =>
    cases huser : alookup (getRoomData (ensureRoom s room) room).users sid with
    | none =>
      rw [show (handleSendMessage s sid payload ts).1 = ensureRoom s room by
          simp [handleSendMessage, hlk, huser],
        alookup_ensureRoom_of_some s room r rm hrm] at hrm'
      obtain rfl := Option.some_inj.mp hrm'
      rfl
    | some user =>
      have hens : alookup (ensureRoom s room).rooms r = some rm :=
        alookup_ensureRoom_of_some s room r rm hrm
      by_cases hv : isValidEncryptedMessage payload
      · cases payload with
        | str t => simp [isValidEncryptedMessage] at hv
        | obj e iv =>
          cases e with
          | none => simp [isValidEncryptedMessage] at hv
          | some e2 =>
            cases iv with
            | none => simp [isValidEncryptedMessage] at hv
            | some iv2 =>
              have h1 : (handleSendMessage s sid (.obj (some e2) (some iv2)) ts).1
                  = addMessageToRoomS (ensureRoom s room) room
                      { user := user.username, text := none, encrypted := some e2,
                        iv := some iv2,
                        color := some user.color, uniqueId := some user.uniqueId,
                        timestamp := ts, isEncrypted := true } := by
                simp [handleSendMessage, hlk, huser, hv]
              obtain ⟨rm2, h2, hpw⟩ := pw_addMessageToRoomS (ensureRoom s room) room _ r rm hens
              rw [h1] at hrm'
              obtain rfl := Option.some_inj.mp (h2.symm.trans hrm')
              exact hpw
      · cases payload with
        | obj e iv =>
          have ht : jsTrim (sanitizeMessage "") = "" := by decide
          rw [show (handleSendMessage s sid (.obj e iv) ts).1 = ensureRoom s room by
              simp [handleSendMessage, hlk, huser, hv, ht], hens] at hrm'
          obtain rfl := Option.some_inj.mp hrm'
          rfl
        | str t =>
          by_cases ht : jsTrim (sanitizeMessage t) = ""
          · rw [show (handleSendMessage s sid (.str t) ts).1 = ensureRoom s room by
                simp [handleSendMessage, hlk, huser, hv, ht], hens] at hrm'
            obtain rfl := Option.some_inj.mp hrm'
            rfl
          · have h1 : (handleSendMessage s sid (.str t) ts).1
                = addMessageToRoomS (ensureRoom s room) room
                    { user := user.username, text := some (sanitizeMessage t),
                      encrypted := none, iv := none,
                      color := some user.color, uniqueId := some user.uniqueId,
                      timestamp := ts, isEncrypted := false } := by
              simp [handleSendMessage, hlk, huser, hv, ht]
            obtain ⟨rm2, h2, hpw⟩ := pw_addMessageToRoomS (ensureRoom s room) room _ r rm hens
            rw [h1] at hrm'
            obtain rfl := Option.some_inj.mp (h2.symm.trans hrm')
            exact hpw

theorem pw_handleDisconnect (s : ServerState) (sid ts : String) (r : String)
    (rm rm' : RoomData) (hnd : (s.rooms.map Prod.fst).Nodup)
    (hrm : alookup s.rooms r = some rm)
    (hrm' : alookup (handleDisconnect s sid ts).1.rooms r = some rm') :
    rm'.password = rm.password := by
  cases hlk : alookup s.userRooms sid with
  | none =>
    rw [show (handleDisconnect s sid ts).1 = s by simp [handleDisconnect, hlk], hrm] at hrm'
    obtain rfl := Option.some_inj.mp hrm'
    rfl
  | some room =>
    cases huser : alookup (getRoomData (ensureRoom s room) room).users sid with
    | none =>
      have h1 : (handleDisconnect s sid ts).1.rooms = (ensureRoom s room).rooms := by
        simp [handleDisconnect, hlk, huser]
      rw [h1, alookup_ensureRoom_of_some s room r rm hrm] at hrm'
      obtain rfl := Option.some_inj.mp hrm'
      rfl
    | some user =>
      have h1 : (handleDisconnect s sid ts).1.rooms
          = (cleanupRoom (ensureRoom (setRoomData
              (ensureRoom (addMessageToRoomS (ensureRoom s room) room
                (leaveAnnouncement user.username ts)) room) room
              ((fun rd => { rd with users := aerase rd.users sid })
                (getRoomData (ensureRoom (addMessageToRoomS (ensureRoom s room) room
                  (leaveAnnouncement user.username ts)) room) room))) room) room).rooms := by
        simp [handleDisconnect, hlk, huser, updateUserCount]
      obtain ⟨rm2, h2, hpw2⟩ := pw_addMessageToRoomS (ensureRoom s room) room
        (leaveAnnouncement user.username ts) r rm (alookup_ensureRoom_of_some s room r rm hrm)
      obtain ⟨rm4, h4, hpw4⟩ := pw_step_set
        (addMessageToRoomS (ensureRoom s room) room (leaveAnnouncement user.username ts)) room
        (fun rd => { rd with users := aerase rd.users sid }) (fun rd => rfl) r rm2 h2
      have hnd4 : (((setRoomData
          (ensureRoom (addMessageToRoomS (ensureRoom s room) room
            (leaveAnnouncement user.username ts)) room) room
          ((fun rd => { rd with users := aerase rd.users sid })
            (getRoomData (ensureRoom (addMessageToRoomS (ensureRoom s room) room
              (leaveAnnouncement user.username ts)) room) room))).rooms).map Prod.fst).Nodup :=
        nodup_setRoomData _ _ _ (nodup_ensureRoom _ _
          (nodup_addMessageToRoomS _ _ _ (nodup_ensureRoom _ _ hnd)))
      have h5 : alookup (ensureRoom (setRoomData
          (ensureRoom (addMessageToRoomS (ensureRoom s room) room
            (leaveAnnouncement user.username ts)) room) room
          ((fun rd => { rd with users := aerase rd.users sid })
            (getRoomData (ensureRoom (addMessageToRoomS (ensureRoom s room) room
              (leaveAnnouncement user.username ts)) room) room))) room).rooms r = some rm4 :=
        alookup_ensureRoom_of_some _ _ _ _ h4
      have hndE : (((ensureRoom (setRoomData
          (ensureRoom (addMessageToRoomS (ensureRoom s room) room
            (leaveAnnouncement user.username ts)) room) room
          ((fun rd => { rd with users := aerase rd.users sid })
            (getRoomData (ensureRoom (addMessageToRoomS (ensureRoom s room) room
              (leaveAnnouncement user.username ts)) room) room))) room).rooms).map
          Prod.fst).Nodup :=
        nodup_ensureRoom _ _ hnd4
      rw [h1] at hrm'
      rw [show ∀ X : ServerState, cleanupRoom X room
            = (if (getRoomData (ensureRoom X room) room).users.isEmpty
               then { ensureRoom X room with
                      rooms := aerase (ensureRoom X room).rooms room }
               else ensureRoom X room) from fun X => rfl] at hrm'
      rw [ensureRoom_of_isSome _ _ (ensureRoom_room_isSome _ _)] at hrm'
      split at hrm'
      · simp only at hrm'
        by_cases hr : room = r
        · subst hr
          rw [alookup_aerase_self_of_nodup _ _ hndE] at hrm'
          cases hrm'
        · rw [alookup_aerase_ne _ _ _ (fun hh => hr hh.symm), h5] at hrm'
          obtain rfl := Option.some_inj.mp hrm'
          exact hpw4.trans hpw2
      · rw [h5] at hrm'
        obtain rfl := Option.some_inj.mp hrm'
        exact hpw4.trans hpw2

theorem pw_handleJoin (s : ServerState) (sid room username : String) (password : Option String)
    (color uniqueId ts : String) (r : String) (rm rm' : RoomData)
    (hrm : alookup (leavePrevious s sid).1.rooms r = some rm)
    (hrm' : alookup (handleJoin s sid room username password color uniqueId ts).1.rooms r
      = some rm') :
    rm'.password = rm.password := by
  cases hex : alookup (leavePrevious s sid).1.rooms room with
  | some rmr =>
    by_cases hval : validateRoomPassword (leavePrevious s sid).1 room password
    · have hx : handleJoin s sid room username password color uniqueId ts
          = admitJoin (leavePrevious s sid).1 (leavePrevious s sid).2
              sid room username color uniqueId ts true := by
        simp only [handleJoin, hex, hval, Option.isSome_some, if_true]
      rw [hx, admitJoin_spec _ _ _ _ _ _ _ _ _ rmr hex] at hrm'
      simp only [alookup_ainsert] at hrm'
      by_cases hr : room = r
      · subst hr
        rw [if_pos rfl] at hrm'
        obtain rfl := Option.some_inj.mp hrm'
        have : rm = rmr := Option.some_inj.mp (hrm.symm.trans hex)
        subst this
        rfl
      · rw [if_neg hr, hrm] at hrm'
        obtain rfl := Option.some_inj.mp hrm'
        rfl
    · rw [show (handleJoin s sid room username password color uniqueId ts).1
            = (leavePrevious s sid).1 by
          simp only [handleJoin, hex, Option.isSome_some, if_true, hval, Bool.false_eq_true,
            if_false], hrm] at hrm'
      obtain rfl := Option.some_inj.mp hrm'
      rfl
  | none =>
    cases password with
    | none =>
      rw [show (handleJoin s sid room username none color uniqueId ts).1
            = (leavePrevious s sid).1 by
          simp only [handleJoin, hex, Option.isSome_none, Bool.false_eq_true, if_false],
        hrm] at hrm'
      obtain rfl := Option.some_inj.mp hrm'
      rfl
    | some p =>
      by_cases ht : jsTrim p = ""
      · rw [show (handleJoin s sid room username (some p) color uniqueId ts).1
              = (leavePrevious s sid).1 by
            simp only [handleJoin, hex, Option.isSome_none, Bool.false_eq_true, if_false, ht,
              if_true], hrm] at hrm'
        obtain rfl := Option.some_inj.mp hrm'
        rfl
      · have hx : handleJoin s sid room username (some p) color uniqueId ts
            = admitJoin (setRoomPassword (leavePrevious s sid).1 room (jsTrim p) username)
                (leavePrevious s sid).2 sid room username color uniqueId ts false := by
          simp only [handleJoin, hex, Option.isSome_none, Bool.false_eq_true, if_false, ht,
            ne_eq, ite_false]
        have hlk2 : alookup (ainsert (leavePrevious s sid).1.rooms room
            (createdRoomData (jsTrim p) username)) room
            = some (createdRoomData (jsTrim p) username) :=
          alookup_ainsert_self _ _ _
        rw [hx, setRoomPassword_absent _ _ _ _ hex,
          admitJoin_spec _ _ _ _ _ _ _ _ _ _ hlk2] at hrm'
        simp only [ainsert_ainsert, alookup_ainsert] at hrm'
        by_cases hr : room = r
        · subst hr
          rw [hex] at hrm
          cases hrm
        · rw [if_neg hr, hrm] at hrm'
          obtain rfl := Option.some_inj.mp hrm'
          rfl

theorem join_admitted_with_secret (s : ServerState) (sid room username : String)
    (color uniqueId ts : String) (rm : RoomData) (sec : String)
    (hrm : alookup (leavePrevious s sid).1.rooms room = some rm)
    (hsec : rm.password = some sec) :
    alookup (handleJoin s sid room username (some sec) color uniqueId ts).1.userRooms sid
      = some room
    ∧ (handleJoin s sid room username (some sec) color uniqueId ts).2.getLast?
        = some (Target.toCaller, Event.joinSuccess room false "Joined room successfully") := by
  have hval : validateRoomPassword (leavePrevious s sid).1 room (some sec) = true := by
    simp [validateRoomPassword, hrm, hsec]
  have hx : handleJoin s sid room username (some sec) color uniqueId ts
      = admitJoin (leavePrevious s sid).1 (leavePrevious s sid).2
          sid room username color uniqueId ts true := by
    simp only [handleJoin, hrm, hval, Option.isSome_some, if_true]
  rw [hx, admitJoin_spec _ _ _ _ _ _ _ _ _ rm hrm]
  refine ⟨alookup_ainsert_self _ _ _, ?_⟩
  simp [List.getLast?_concat]

theorem join_rejected_with_wrong_secret (s : ServerState) (sid room username : String)
    (color uniqueId ts : String) (rm : RoomData) (sec : String) (candidate : Option String)
    (hrm : alookup (leavePrevious s sid).1.rooms room = some rm)
    (hsec : rm.password = some sec) (hne : candidate ≠ some sec) :
    handleJoin s sid room username candidate color uniqueId ts
      = ((leavePrevious s sid).1,
         (leavePrevious s sid).2 ++ [(Target.toCaller, Event.error "Incorrect room password")]) := by
  have hval : validateRoomPassword (leavePrevious s sid).1 room candidate = false := by
    cases candidate with
    | none => simp [validateRoomPassword, hrm, hsec]
    | some q =>
      have hq : ¬ (sec = q) := fun h => hne (by rw [h])
      simp [validateRoomPassword, hrm, hsec, hq]
  simp only [handleJoin, hrm, Option.isSome_some, if_true, hval, Bool.false_eq_true, if_false]

/-- C3: a room's secret, once set by its creator, is never overwritten while
the room survives: every handler step (join, send, typing, disconnect — for
the join step, relative to the state after its unconditional leave-previous
preamble, and for disconnect on a registry with well-formed Map keys) leaves
the password of every surviving room unchanged; moreover a joinRoom carrying
the room's stored secret is always admitted (`joinSuccess`, registered in the
session index) and a joinRoom carrying any other candidate is always rejected
with the incorrect-password error and no further effect. -/
theorem abyss_C3 :
    (∀ (s : ServerState) (sid room username : String) (password : Option String)
       (color uniqueId ts r : String) (rm rm' : RoomData),
       alookup (leavePrevious s sid).1.rooms r = some rm →
       alookup (handleJoin s sid room username password color uniqueId ts).1.rooms r
         = some rm' →
       rm'.password = rm.password)
    ∧ (∀ (s : ServerState) (sid : String) (payload : MsgPayload) (ts r : String)
         (rm rm' : RoomData),
       alookup s.rooms r = some rm →
       alookup (handleSendMessage s sid payload ts).1.rooms r = some rm' →
       rm'.password = rm.password)
    ∧ (∀ (s : ServerState) (sid : String) (b : Bool) (r : String) (rm rm' : RoomData),
       alookup s.rooms r = some rm →
       alookup (handleTyping s sid b).1.rooms r = some rm' →
       rm'.password = rm.password)
    ∧ (∀ (s : ServerState) (sid ts r : String) (rm rm' : RoomData),
       (s.rooms.map Prod.fst).Nodup →
       alookup s.rooms r = some rm →
       alookup (handleDisconnect s sid ts).1.rooms r = some rm' →
       rm'.password = rm.password)
    ∧ (∀ (s : ServerState) (sid room username color uniqueId ts : String)
         (rm : RoomData) (sec : String),
       alookup (leavePrevious s sid).1.rooms room = some rm →
       rm.password = some sec →
       alookup (handleJoin s sid room username (some sec) color uniqueId ts).1.userRooms sid
         = some room
       ∧ (handleJoin s sid room username (some sec) color uniqueId ts).2.getLast?
           = some (Target.toCaller, Event.joinSuccess room false "Joined room successfully"))
    ∧ (∀ (s : ServerState) (sid room username color uniqueId ts : String)
         (rm : RoomData) (sec : String) (candidate : Option String),
       alookup (leavePrevious s sid).1.rooms room = some rm →
       rm.password = some sec →
       candidate ≠ some sec →
       handleJoin s sid room username candidate color uniqueId ts
         = ((leavePrevious s sid).1,
            (leavePrevious s sid).2
              ++ [(Target.toCaller, Event.error "Incorrect room password")])) :=
  ⟨fun s sid room username password color uniqueId ts r rm rm' h h' =>
      pw_handleJoin s sid room username password color uniqueId ts r rm rm' h h',
   fun s sid payload ts r rm rm' h h' =>
      pw_handleSendMessage s sid payload ts r rm rm' h h',
   fun s sid b r rm rm' h h' => pw_handleTyping s sid b r rm rm' h h',
   fun s sid ts r rm rm' hnd h h' => pw_handleDisconnect s sid ts r rm rm' hnd h h',
   fun s sid room username color uniqueId ts rm sec h hs =>
      join_admitted_with_secret s sid room username color uniqueId ts rm sec h hs,
   fun s sid room username color uniqueId ts rm sec candidate h hs hne =>
      join_rejected_with_wrong_secret s sid room username color uniqueId ts rm sec candidate
        h hs hne⟩

theorem abyss_C3_witness :
    alookup (leavePrevious traceS2 "U").1.rooms "B"
      = some (getRoomData (leavePrevious traceS2 "U").1 "B")
    ∧ (getRoomData (leavePrevious traceS2 "U").1 "B").password = some "pw1"
    ∧ alookup (handleJoin traceS2 "U" "B" "uuser" (some "pw1") "#FFBD33" "u9"
        "09:10:00").1.userRooms "U" = some "B"
    ∧ (handleJoin traceS2 "U" "B" "uuuser" (some "wrong") "#FFBD33" "u9" "09:10:00").2
        = (leavePrevious traceS2 "U").2
          ++ [(Target.toCaller, Event.error "Incorrect room password")] :=
  ⟨by decide, by decide,
   ((abyss_C3.2.2.2.2.1 traceS2 "U" "B" "uuser" "#FFBD33" "u9" "09:10:00"
       (getRoomData (leavePrevious traceS2 "U").1 "B") "pw1" (by decide) (by decide)).1),
   by rw [(abyss_C3.2.2.2.2.2 traceS2 "U" "B" "uuuser" "#FFBD33" "u9" "09:10:00"
       (getRoomData (leavePrevious traceS2 "U").1 "B") "pw1" (some "wrong")
       (by decide) (by decide) (by decide))]⟩

/-! ## Client-side encryption layer (TerminalUI.jsx `ChatEncryption`)

The WebCrypto primitives the client calls — SHA-256, HMAC-SHA256, PBKDF2,
AES-256-GCM — are embedded below following FIPS 180-4, RFC 2104, RFC 8018 and
NIST SP 800-38D. Bytes are `Nat`s below 256, words are `Nat`s reduced mod
`2^32`. -/

def w32 (n : Nat) : Nat := n % 4294967296

def rotr32 (x n : Nat) : Nat := w32 ((x >>> n) ||| (x <<< (32 - n)))

def natToBytesBE (len n : Nat) : List Nat :=
  (List.range len).map (fun i => (n >>> (8 * (len - 1 - i))) % 256)

def bytesToNatBE (l : List Nat) : Nat := l.foldl (fun acc b => acc * 256 + b) 0

def chunksOfGo (n : Nat) : Nat → List Nat → List (List Nat)
  | 0, _ => []
  | _, [] => []
  | fuel + 1, l@(_ :: _) => l.take n :: chunksOfGo n fuel (l.drop n)

def chunksOf (n : Nat) (l : List Nat) : List (List Nat) := chunksOfGo n l.length l

/-- Integer cube root by binary search (used for the SHA-256 round constants,
which FIPS 180-4 defines as the fractional parts of the cube roots of the
first sixty-four primes). -/
def icbrtGo (n : Nat) : Nat → Nat → Nat → Nat
  | 0, lo, _ => lo
  | fuel + 1, lo, hi =>
    if lo + 1 ≥ hi then lo
    else
      let mid := (lo + hi) / 2
      if mid * mid * mid ≤ n then icbrtGo n fuel mid hi else icbrtGo n fuel lo mid

def icbrt (n : Nat) : Nat := icbrtGo n 256 0 (n + 1)

def primes64 : List Nat :=
  [2, 3, 5, 7, 11, 13, 17, 19, 23, 29, 31, 37, 41, 43, 47, 53,
   59, 61, 67, 71, 73, 79, 83, 89, 97, 101, 103, 107, 109, 113, 127, 131,
   137, 139, 149, 151, 157, 163, 167, 173, 179, 181, 191, 193, 197, 199, 211, 223,
   227, 229, 233, 239, 241, 251, 257, 263, 269, 271, 277, 281, 283, 293, 307, 311]

def sha256K : List Nat := primes64.map (fun p => w32 (icbrt (p * 2 ^ 96)))

def sha256H0 : List Nat := (primes64.take 8).map (fun p => w32 (Nat.sqrt (p * 2 ^ 64)))

def sha256Pad (msg : List Nat) : List Nat :=
  msg ++ [128] ++ List.replicate ((119 - msg.length % 64) % 64) 0
    ++ natToBytesBE 8 (8 * msg.length)

def sha256SchedGo : Nat → List Nat → List Nat
  | 0, acc => acc
  | k + 1, acc =>
    let i := acc.length
    let x15 := acc.getD (i - 15) 0
    let x2 := acc.getD (i - 2) 0
    let s0 := rotr32 x15 7 ^^^ rotr32 x15 18 ^^^ (x15 >>> 3)
    let s1 := rotr32 x2 17 ^^^ rotr32 x2 19 ^^^ (x2 >>> 10)
    sha256SchedGo k (acc ++ [w32 (acc.getD (i - 16) 0 + s0 + acc.getD (i - 7) 0 + s1)])

def sha256Sched (ws : List Nat) : List Nat := sha256SchedGo 48 ws

def sha256Round (ki wi : Nat) (st : List Nat) : List Nat :=
  let a := st.getD 0 0
  let b := st.getD 1 0
  let c := st.getD 2 0
  let d := st.getD 3 0
  let e := st.getD 4 0
  let f := st.getD 5 0
  let g := st.getD 6 0
  let h := st.getD 7 0
  let s1 := rotr32 e 6 ^^^ rotr32 e 11 ^^^ rotr32 e 25
  let ch := (e &&& f) ^^^ ((e ^^^ 4294967295) &&& g)
  let t1 := w32 (h + s1 + ch + ki + wi)
  let s0 := rotr32 a 2 ^^^ rotr32 a 13 ^^^ rotr32 a 22
  let maj := (a &&& b) ^^^ (a &&& c) ^^^ (b &&& c)
  let t2 := w32 (s0 + maj)
  [w32 (t1 + t2), a, b, c, w32 (d + t1), e, f, g]

def sha256Compress (h : List Nat) (chunk : List Nat) : List Nat :=
  let ws := sha256Sched ((chunksOf 4 chunk).map bytesToNatBE)
  let st := (List.range 64).foldl
    (fun st i => sha256Round (sha256K.getD i 0) (ws.getD i 0) st) h
  List.zipWith (fun x y => w32 (x + y)) h st

def sha256 (msg : List Nat) : List Nat :=
  (((chunksOf 64 (sha256Pad msg)).foldl sha256Compress sha256H0).map
    (natToBytesBE 4)).flatten

def hmacSha256 (key msg : List Nat) : List Nat :=
  let k1 := if key.length > 64 then sha256 key else key
  let k2 := k1 ++ List.replicate (64 - k1.length) 0
  sha256 ((k2.map (fun b => b ^^^ 92)) ++ sha256 ((k2.map (fun b => b ^^^ 54)) ++ msg))

def xorBytes (a b : List Nat) : List Nat := List.zipWith (fun x y => x ^^^ y) a b

def pbkdf2Go (password : List Nat) : Nat → List Nat → List Nat → List Nat
  | 0, _, acc => acc
  | k + 1, u, acc =>
    let u2 := hmacSha256 password u
    pbkdf2Go password k u2 (xorBytes acc u2)

def pbkdf2Block (password salt : List Nat) (c i : Nat) : List Nat :=
  let u1 := hmacSha256 password (salt ++ natToBytesBE 4 i)
  pbkdf2Go password (c - 1) u1 u1

def pbkdf2HmacSha256 (password salt : List Nat) (c dkLen : Nat) : List Nat :=
  (((List.range ((dkLen + 31) / 32)).map
    (fun i => pbkdf2Block password salt c (i + 1))).flatten).take dkLen

/-! ### AES-256 (FIPS 197), block state as a 16-byte column-major list -/

def xtime (a : Nat) : Nat :=
  if a ≥ 128 then ((a <<< 1) ^^^ 283) % 256 else (a <<< 1) % 256

def gmul8Go : Nat → Nat → Nat → Nat → Nat
  | 0, _, _, acc => acc
  | k + 1, a, b, acc =>
    gmul8Go k (xtime a) (b / 2) (if b % 2 = 1 then acc ^^^ a else acc)

def gmul8 (a b : Nat) : Nat := gmul8Go 8 (a % 256) (b % 256) 0

/-- Multiplicative inverse in GF(2^8) (with 0 mapped to 0), as
`a^254 = a^128 · a^64 · a^32 · a^16 · a^8 · a^4 · a^2` by Fermat. -/
def ginv8 (a : Nat) : Nat :=
  let a2 := gmul8 a a
  let a4 := gmul8 a2 a2
  let a8 := gmul8 a4 a4
  let a16 := gmul8 a8 a8
  let a32 := gmul8 a16 a16
  let a64 := gmul8 a32 a32
  let a128 := gmul8 a64 a64
  gmul8 a128 (gmul8 a64 (gmul8 a32 (gmul8 a16 (gmul8 a8 (gmul8 a4 a2)))))

def rotl8 (b k : Nat) : Nat := (((b % 256) <<< k) ||| ((b % 256) >>> (8 - k))) % 256

/-- The AES S-box from its definition: multiplicative inverse in GF(2^8)
followed by the affine transform. -/
def sbox (x : Nat) : Nat :=
  let b := ginv8 (x % 256)
  b ^^^ rotl8 b 1 ^^^ rotl8 b 2 ^^^ rotl8 b 3 ^^^ rotl8 b 4 ^^^ 99

def subWord (w : Nat) : Nat :=
  (sbox ((w >>> 24) % 256) <<< 24) ||| (sbox ((w >>> 16) % 256) <<< 16)
    ||| (sbox ((w >>> 8) % 256) <<< 8) ||| sbox (w % 256)

def rotWord (w : Nat) : Nat := w32 ((w <<< 8) ||| (w >>> 24))

def rconByte : Nat → Nat
  | 0 => 141
  | 1 => 1
  | k + 2 => xtime (rconByte (k + 1))

/-- AES-256 key schedule: extend the eight key words to sixty. -/
def aesKeySchedGo : Nat → List Nat → List Nat
  | 0, acc => acc
  | k + 1, acc =>
    let i := acc.length
    let prev := acc.getD (i - 1) 0
    let base := acc.getD (i - 8) 0
    let w :=
      if i % 8 = 0 then w32 (base ^^^ subWord (rotWord prev) ^^^ (rconByte (i / 8) <<< 24))
      else if i % 8 = 4 then w32 (base ^^^ subWord prev)
      else w32 (base ^^^ prev)
    aesKeySchedGo k (acc ++ [w])

def aesKeyWords (key : List Nat) : List Nat :=
  aesKeySchedGo 52 ((chunksOf 4 key).map bytesToNatBE)

def roundKeyByteW (ws : List Nat) (r idx : Nat) : Nat :=
  (ws.getD (4 * r + idx / 4) 0 >>> (8 * (3 - idx % 4))) % 256

def subBytesL (st : List Nat) : List Nat := st.map sbox

def shiftRowsL (st : List Nat) : List Nat :=
  List.ofFn (fun i : Fin 16 => st.getD (i.val % 4 + 4 * ((i.val / 4 + i.val % 4) % 4)) 0)

def mixColumn (a0 a1 a2 a3 r : Nat) : Nat :=
  match r with
  | 0 => gmul8 2 a0 ^^^ gmul8 3 a1 ^^^ a2 ^^^ a3
  | 1 => a0 ^^^ gmul8 2 a1 ^^^ gmul8 3 a2 ^^^ a3
  | 2 => a0 ^^^ a1 ^^^ gmul8 2 a2 ^^^ gmul8 3 a3
  | _ => gmul8 3 a0 ^^^ a1 ^^^ a2 ^^^ gmul8 2 a3

def mixColumnsL (st : List Nat) : List Nat :=
  List.ofFn (fun i : Fin 16 =>
    mixColumn (st.getD (4 * (i.val / 4)) 0) (st.getD (4 * (i.val / 4) + 1) 0)
      (st.getD (4 * (i.val / 4) + 2) 0) (st.getD (4 * (i.val / 4) + 3) 0) (i.val % 4))

def addRoundKeyL (ws : List Nat) (r : Nat) (st : List Nat) : List Nat :=
  List.ofFn (fun i : Fin 16 => st.getD i.val 0 ^^^ roundKeyByteW ws r i.val)

def aesEncryptBlock (key block : List Nat) : List Nat :=
  let ws := aesKeyWords key
  let stMid := (List.range 13).foldl
    (fun st r => addRoundKeyL ws (r + 1) (mixColumnsL (shiftRowsL (subBytesL st))))
    (addRoundKeyL ws 0 block)
  addRoundKeyL ws 14 (shiftRowsL (subBytesL stMid))

/-! ### GCM (NIST SP 800-38D), 12-byte IV, no additional authenticated data -/

def gf128R : Nat := 0xe1000000000000000000000000000000

def gf128mul (x y : Nat) : Nat :=
  ((List.range 128).foldl (fun zv i =>
    ((if (x >>> (127 - i)) % 2 = 1 then zv.1 ^^^ zv.2 else zv.1),
     (if zv.2 % 2 = 1 then (zv.2 >>> 1) ^^^ gf128R else zv.2 >>> 1)))
    ((0 : Nat), y)).1

def ghash (h : Nat) (data : List Nat) : Nat :=
  (chunksOf 16 data).foldl (fun y chunk =>
    gf128mul (y ^^^ bytesToNatBE (chunk ++ List.replicate (16 - chunk.length) 0)) h) 0

def ctrBlocks (key iv : List Nat) (n : Nat) : List Nat :=
  ((((List.range ((n + 15) / 16)).map
    (fun i => aesEncryptBlock key (iv ++ natToBytesBE 4 (i + 2))))).flatten).take n

def ctrCrypt (key iv data : List Nat) : List Nat := xorBytes data (ctrBlocks key iv data.length)

def gcmTag (key iv ct : List Nat) : List Nat :=
  let h := bytesToNatBE (aesEncryptBlock key (List.replicate 16 0))
  let s := ghash h (ct ++ List.replicate ((16 - ct.length % 16) % 16) 0
    ++ natToBytesBE 8 0 ++ natToBytesBE 8 (8 * ct.length))
  xorBytes (natToBytesBE 16 s) (aesEncryptBlock key (iv ++ [0, 0, 0, 1]))

def gcmEncrypt (key iv pt : List Nat) : List Nat :=
  ctrCrypt key iv pt ++ gcmTag key iv (ctrCrypt key iv pt)

def gcmDecrypt (key iv data : List Nat) : Option (List Nat) :=
  if data.length < 16 then none
  else
    let ct := data.take (data.length - 16)
    let tag := data.drop (data.length - 16)
    if gcmTag key iv ct = tag then some (ctrCrypt key iv ct) else none

/-! ### UTF-8 (TextEncoder / TextDecoder with non-fatal replacement) -/

def utf8EncodeChar (c : Char) : List Nat :=
  let n := c.toNat
  if n < 128 then [n]
  else if n < 2048 then [192 + n / 64, 128 + n % 64]
  else if n < 65536 then [224 + n / 4096, 128 + (n / 64) % 64, 128 + n % 64]
  else [240 + n / 262144, 128 + (n / 4096) % 64, 128 + (n / 64) % 64, 128 + n % 64]

def utf8Encode (s : String) : List Nat := s.data.flatMap utf8EncodeChar

def replChar : Char := Char.ofNat 65533

def isContByte (b : Nat) : Bool := 128 ≤ b && b < 192

/-- Best-effort UTF-8 decoding, one replacement character per rejected byte
sequence, surrogates and overlong encodings rejected. The fuel argument is an
upper bound on the number of decoded characters; every step consumes at least
one byte. -/
def utf8DecodeGo : Nat → List Nat → List Char
  | 0, _ => []
  | _ + 1, [] => []
  | fuel + 1, b :: rest =>
    if b < 128 then Char.ofNat b :: utf8DecodeGo fuel rest
    else if b < 194 then replChar :: utf8DecodeGo fuel rest
    else if b < 224 then
      match rest with
      | b2 :: rest2 =>
        if isContByte b2 then
          Char.ofNat ((b - 192) * 64 + (b2 - 128)) :: utf8DecodeGo fuel rest2
        else replChar :: utf8DecodeGo fuel rest
      | [] => [replChar]
    else if b < 240 then
      match rest with
      | b2 :: b3 :: rest3 =>
        if isContByte b2 && isContByte b3 then
          let n := (b - 224) * 4096 + (b2 - 128) * 64 + (b3 - 128)
          if 2048 ≤ n && (n < 55296 || 57344 ≤ n) then Char.ofNat n :: utf8DecodeGo fuel rest3
          else replChar :: utf8DecodeGo fuel rest3
        else replChar :: utf8DecodeGo fuel rest
      | _ => [replChar]
    else if b < 245 then
      match rest with
      | b2 :: b3 :: b4 :: rest4 =>
        if isContByte b2 && isContByte b3 && isContByte b4 then
          let n := (b - 240) * 262144 + (b2 - 128) * 4096 + (b3 - 128) * 64 + (b4 - 128)
          if 65536 ≤ n && n < 1114112 then Char.ofNat n :: utf8DecodeGo fuel rest4
          else replChar :: utf8DecodeGo fuel rest4
        else replChar :: utf8DecodeGo fuel rest
      | _ => [replChar]
    else replChar :: utf8DecodeGo fuel rest

def utf8Decode (l : List Nat) : String := String.mk (utf8DecodeGo (l.length + 1) l)

/-! ### `ChatEncryption` (TerminalUI.jsx lines 173-259) and the `message`
handler (lines 407-450)

The WebCrypto `CryptoKey` a session holds is modelled by the 32 raw bytes
PBKDF2 produces; the fresh random IV of `encryptMessage` and the clock are
passed in as parameters. -/

def decryptionFailedText : String := "[Message could not be decrypted]"

/-- `ChatEncryption.deriveKeyFromPassword`: PBKDF2-HMAC-SHA256 with
`salt = SHA256(roomId)`, 100000 iterations, a 256-bit AES-GCM key. -/
def deriveKeyFromPassword (password roomId : String) : List Nat :=
  pbkdf2HmacSha256 (utf8Encode password) (sha256 (utf8Encode roomId)) 100000 32

/-- `deriveKeyFromPassword` including its `this.roomKeys.set(roomId, key)`. -/
def deriveKeyStore (roomKeys : List (String × List Nat)) (password roomId : String) :
    List (String × List Nat) :=
  ainsert roomKeys roomId (deriveKeyFromPassword password roomId)

/-- `ChatEncryption.encryptMessage`: AES-GCM under the room key with a fresh
12-byte IV; returns the `{encrypted, iv}` pair. -/
def encryptMessage (key iv : List Nat) (message : String) : List Nat × List Nat :=
  (gcmEncrypt key iv (utf8Encode message), iv)

/-- `ChatEncryption.decryptMessage`: AES-GCM open; an authentication failure
is caught and surfaced as the fixed sentinel string. -/
def decryptMessage (key encryptedData iv : List Nat) : String :=
  match gcmDecrypt key iv encryptedData with
  | some bs => utf8Decode bs
  | none => decryptionFailedText

/-- What the client renders for one incoming `message` event. -/
structure DisplayMsg where
  base : Message
  text : Option String
  isDecrypted : Option Bool
  icon : Option String
deriving DecidableEq

/-- The `socket.on('message')` handler of TerminalUI.jsx: decrypt encrypted
payloads with the cached room key; a sentinel result is treated as a wrong
secret — the cached key is cleared (`handleWrongPassword` /
`clearRoomKey`). -/
def clientOnMessage (roomKeys : List (String × List Nat)) (room : String) (msg : Message) :
    List (String × List Nat) × DisplayMsg :=
  if msg.isEncrypted && msg.encrypted.isSome && msg.iv.isSome then
    match alookup roomKeys room with
    | some key =>
      let d := decryptMessage key (msg.encrypted.getD []) (msg.iv.getD [])
      if d = decryptionFailedText then
        (aerase roomKeys room,
         { base := msg, text := some "[Encrypted message - wrong password]",
           isDecrypted := some false, icon := some "🔒" })
      else
        (roomKeys, { base := msg, text := some d, isDecrypted := some true, icon := some "🔓" })
    | none =>
      (roomKeys, { base := msg, text := some "[Encrypted message - password required]",
                   isDecrypted := some false, icon := some "🔒" })
  else (roomKeys, { base := msg, text := msg.text, isDecrypted := none, icon := none })

/-! ### Facts about the encryption layer -/

theorem length_natToBytesBE (len n : Nat) : (natToBytesBE len n).length = len := by
  simp [natToBytesBE]

theorem length_addRoundKeyL (ws : List Nat) (r : Nat) (st : List Nat) :
    (addRoundKeyL ws r st).length = 16 := by
  simp only [addRoundKeyL, List.length_ofFn]

theorem length_aesEncryptBlock (key block : List Nat) :
    (aesEncryptBlock key block).length = 16 :=
  length_addRoundKeyL _ _ _

theorem length_flatten_16 : ∀ l : List (List Nat),
    (∀ x ∈ l, x.length = 16) → l.flatten.length = 16 * l.length := by
  intro l
  induction l with
  | nil => intro _; rfl
  | cons hd tl ih =>
    intro h
    simp only [List.flatten_cons, List.length_append, List.length_cons]
    rw [h hd (by simp), ih (fun x hx => h x (by simp [hx]))]
    ring

theorem length_ctrBlocks (key iv : List Nat) (n : Nat) : (ctrBlocks key iv n).length = n := by
  simp only [ctrBlocks, List.length_take]
  rw [length_flatten_16]
  · rw [List.length_map, List.length_range]
    have := Nat.div_add_mod (n + 15) 16
    have h2 : (n + 15) % 16 < 16 := Nat.mod_lt _ (by omega)
    omega
  · intro x hx
    simp only [List.mem_map] at hx
    obtain ⟨i, _, rfl⟩ := hx
    exact length_aesEncryptBlock _ _

theorem length_ctrCrypt (key iv data : List Nat) : (ctrCrypt key iv data).length = data.length := by
  simp [ctrCrypt, xorBytes, length_ctrBlocks]

theorem nat_xor_cancel (a b : Nat) : (a ^^^ b) ^^^ b = a := by
  rw [Nat.xor_assoc, Nat.xor_self, Nat.xor_zero]

theorem xorBytes_cancel : ∀ (l ks : List Nat), l.length ≤ ks.length →
    xorBytes (xorBytes l ks) ks = l := by
  intro l
  induction l with
  | nil => intro ks _; rfl
  | cons a as ih =>
    intro ks h
    cases ks with
    | nil => simp at h
    | cons k kss =>
      simp only [xorBytes, List.zipWith_cons_cons, nat_xor_cancel, List.cons.injEq, true_and]
      exact ih kss (by simpa using h)

theorem ctrCrypt_ctrCrypt (key iv pt : List Nat) : ctrCrypt key iv (ctrCrypt key iv pt) = pt := by
  have h1 := length_ctrCrypt key iv pt
  simp only [ctrCrypt] at h1 ⊢
  rw [h1]
  exact xorBytes_cancel pt _ (by rw [length_ctrBlocks])

theorem length_gcmTag (key iv ct : List Nat) : (gcmTag key iv ct).length = 16 := by
  simp [gcmTag, xorBytes, length_natToBytesBE, length_aesEncryptBlock]

/-- AES-GCM round trip: decrypting what `gcmEncrypt` produced, with the same
key and IV, recovers the plaintext (the recomputed tag matches by
construction). -/
theorem gcmDecrypt_gcmEncrypt (key iv pt : List Nat) :
    gcmDecrypt key iv (gcmEncrypt key iv pt) = some pt := by
  unfold gcmEncrypt gcmDecrypt
  have hct : (ctrCrypt key iv pt).length = pt.length := length_ctrCrypt key iv pt
  have htag := length_gcmTag key iv (ctrCrypt key iv pt)
  have hlen : (ctrCrypt key iv pt ++ gcmTag key iv (ctrCrypt key iv pt)).length
      = (ctrCrypt key iv pt).length + 16 := by simp [htag]
  rw [if_neg (by omega)]
  have hsub : (ctrCrypt key iv pt ++ gcmTag key iv (ctrCrypt key iv pt)).length - 16
      = (ctrCrypt key iv pt).length := by omega
  rw [hsub, List.take_left, List.drop_left, if_pos rfl, ctrCrypt_ctrCrypt]

theorem length_sha256Round (ki wi : Nat) (st : List Nat) : (sha256Round ki wi st).length = 8 :=
  rfl

theorem length_foldl_sha256Round (f g : Nat → Nat) :
    ∀ (l : List Nat) (st : List Nat), st.length = 8 →
    (l.foldl (fun st i => sha256Round (f i) (g i) st) st).length = 8 := by
  intro l
  induction l with
  | nil => intro st h; exact h
  | cons hd tl ih => intro st _; exact ih _ (length_sha256Round _ _ _)

theorem length_sha256Compress (h chunk : List Nat) (hh : h.length = 8) :
    (sha256Compress h chunk).length = 8 := by
  simp only [sha256Compress, List.length_zipWith]
  rw [length_foldl_sha256Round (fun i => sha256K.getD i 0)
    (fun i => (sha256Sched ((chunksOf 4 chunk).map bytesToNatBE)).getD i 0) _ _ hh, hh]
  rfl

theorem length_foldl_sha256Compress :
    ∀ (chunks : List (List Nat)) (h : List Nat), h.length = 8 →
    (chunks.foldl sha256Compress h).length = 8 := by
  intro chunks
  induction chunks with
  | nil => intro h hh; exact hh
  | cons hd tl ih => intro h hh; exact ih _ (length_sha256Compress _ _ hh)

theorem length_flatten_4 : ∀ l : List (List Nat),
    (∀ x ∈ l, x.length = 4) → l.flatten.length = 4 * l.length := by
  intro l
  induction l with
  | nil => intro _; rfl
  | cons hd tl ih =>
    intro h
    simp only [List.flatten_cons, List.length_append, List.length_cons]
    rw [h hd (by simp), ih (fun x hx => h x (by simp [hx]))]
    ring

theorem length_sha256 (msg : List Nat) : (sha256 msg).length = 32 := by
  simp only [sha256]
  rw [length_flatten_4]
  · rw [List.length_map, length_foldl_sha256Compress _ _ (by decide)]
  · intro x hx
    simp only [List.mem_map] at hx
    obtain ⟨w, _, rfl⟩ := hx
    exact length_natToBytesBE _ _

theorem length_hmacSha256 (key msg : List Nat) : (hmacSha256 key msg).length = 32 :=
  length_sha256 _

theorem length_pbkdf2Go (password : List Nat) :
    ∀ (k : Nat) (u acc : List Nat), acc.length = 32 →
    (pbkdf2Go password k u acc).length = 32 := by
  intro k
  induction k with
  | zero => intro u acc h; exact h
  | succ k ih =>
    intro u acc h
    simp only [pbkdf2Go]
    exact ih _ _ (by simp [xorBytes, h, length_hmacSha256])

theorem length_pbkdf2Block (password salt : List Nat) (c i : Nat) :
    (pbkdf2Block password salt c i).length = 32 :=
  length_pbkdf2Go password _ _ _ (length_hmacSha256 _ _)

theorem length_pbkdf2_32 (password salt : List Nat) (c : Nat) :
    (pbkdf2HmacSha256 password salt c 32).length = 32 := by
  simp only [pbkdf2HmacSha256, List.length_take]
  rw [show ((32 + 31) / 32 : Nat) = 1 from rfl]
  rw [show List.range 1 = [0] from rfl]
  simp [length_pbkdf2Block]

/-- Key derivation exactly as the spec words it: PBKDF2-HMAC-SHA256 with
password = secret, salt = SHA256(roomId), 100000 iterations and a 256-bit
output. -/
def specDerivedKey (secret roomId : String) : List Nat :=
  pbkdf2HmacSha256 (utf8Encode secret) (sha256 (utf8Encode roomId)) 100000 32

/-- C5: `deriveKeyFromPassword` is the pure deterministic function
PBKDF2-HMAC-SHA256(password = secret, salt = SHA256(roomId),
iterations = 100000, 256-bit output); any two sessions (key stores) deriving
with the same secret and room id hold the identical key with no exchange. -/
theorem abyss_C5 :
    (∀ secret roomId, deriveKeyFromPassword secret roomId = specDerivedKey secret roomId)
    ∧ (∀ secret roomId, (deriveKeyFromPassword secret roomId).length = 32)
    ∧ (∀ (ks1 ks2 : List (String × List Nat)) (secret roomId : String),
        alookup (deriveKeyStore ks1 secret roomId) roomId
          = alookup (deriveKeyStore ks2 secret roomId) roomId) :=
  ⟨fun _ _ => rfl,
   fun secret roomId => length_pbkdf2_32 _ _ _,
   fun ks1 ks2 secret roomId => by
     simp only [deriveKeyStore, alookup_ainsert_self]⟩

/-- C9 (amended): `decryptMessage` catches an AES-GCM authentication failure
and surfaces it as the fixed sentinel string `'[Message could not be
decrypted]'` instead of propagating a fatal error; the sentinel is
distinguishable from every successful decryption whose plaintext is not
itself that exact string (a plaintext equal to the sentinel is
indistinguishable from failure), and on seeing the sentinel the client's
message handler invalidates the cached room key and marks the message as
wrong-password. -/
theorem abyss_C9 :
    (∀ key iv ct, gcmDecrypt key iv ct = none →
      decryptMessage key ct iv = decryptionFailedText)
    ∧ (∀ key iv ct bs, gcmDecrypt key iv ct = some bs →
      decryptMessage key ct iv = utf8Decode bs)
    ∧ (∀ (roomKeys : List (String × List Nat)) (room : String) (key : List Nat) (msg : Message),
      alookup roomKeys room = some key →
      msg.isEncrypted = true → msg.encrypted.isSome = true → msg.iv.isSome = true →
      decryptMessage key (msg.encrypted.getD []) (msg.iv.getD []) = decryptionFailedText →
      (clientOnMessage roomKeys room msg).1 = aerase roomKeys room
      ∧ (clientOnMessage roomKeys room msg).2.text
          = some "[Encrypted message - wrong password]") := by
  refine ⟨?_, ?_, ?_⟩
  · intro key iv ct h
    simp [decryptMessage, h]
  · intro key iv ct bs h
    simp [decryptMessage, h]
  · intro roomKeys room key msg hkey henc hsome hivs hfail
    simp only [clientOnMessage, henc, hsome, hivs, Bool.and_self, if_true, hkey, hfail,
      Bool.true_and, and_self]

def cexRoomKey : List Nat := List.replicate 32 7

def cexNonce : List Nat := List.replicate 12 3

/-- The `{ciphertext, iv}` pair a client produces when the plaintext is
literally the decryption-failure sentinel. -/
def cexSentinelCipher : List Nat := gcmEncrypt cexRoomKey cexNonce (utf8Encode decryptionFailedText)

def cexSentinelMsg : Message :=
  { user := "alice", text := none, encrypted := some cexSentinelCipher,
    iv := some cexNonce, color := some "#FF5733", uniqueId := some "ab12",
    timestamp := "10:00:00", isEncrypted := true }

/-- Counterexample to C9 as stated: the failure outcome is NOT distinguishable
from every successful decryption result. Decrypting this ciphertext with the
correct key succeeds (the GCM authentication passes and yields the original
plaintext), yet `decryptMessage` returns exactly the failure sentinel, and the
client's message handler — holding the CORRECT key — invalidates it and
renders the message as wrong-password. -/
theorem abyss_C9_cex :
    gcmDecrypt cexRoomKey cexNonce cexSentinelCipher
      = some (utf8Encode decryptionFailedText)
    ∧ decryptMessage cexRoomKey cexSentinelCipher cexNonce = decryptionFailedText
    ∧ (clientOnMessage [("room1", cexRoomKey)] "room1" cexSentinelMsg).1 = []
    ∧ (clientOnMessage [("room1", cexRoomKey)] "room1" cexSentinelMsg).2.text
        = some "[Encrypted message - wrong password]" := by
  have h1 : gcmDecrypt cexRoomKey cexNonce cexSentinelCipher
      = some (utf8Encode decryptionFailedText) :=
    gcmDecrypt_gcmEncrypt cexRoomKey cexNonce (utf8Encode decryptionFailedText)
  have hascii : utf8Decode (utf8Encode decryptionFailedText) = decryptionFailedText := by decide
  have h2 : decryptMessage cexRoomKey cexSentinelCipher cexNonce = decryptionFailedText := by
    simp [decryptMessage, h1, hascii]
  have hlk : alookup [("room1", cexRoomKey)] "room1" = some cexRoomKey := by decide
  have h3 := (abyss_C9.2.2 [("room1", cexRoomKey)] "room1" cexRoomKey cexSentinelMsg
    hlk rfl rfl rfl (by simpa [cexSentinelMsg] using h2))
  refine ⟨h1, h2, ?_, h3.2⟩
  rw [h3.1]
  decide

/-- Witness for C9 (amended): a too-short ciphertext fails authentication and
surfaces as the sentinel; a handler holding the key for the room clears it on
the sentinel. -/
theorem abyss_C9_witness :
    gcmDecrypt cexRoomKey cexNonce [] = none
    ∧ decryptMessage cexRoomKey [] cexNonce = decryptionFailedText :=
  ⟨by decide, abyss_C9.1 cexRoomKey cexNonce [] (by decide)⟩
